import Mathlib

set_option linter.unnecessarySeqFocus false
set_option linter.unreachableTactic false
set_option linter.unusedTactic false

/-!
Verification of the docklean scan/filter/select/clean engine.

The TypeScript sources are shallowly embedded: JavaScript numbers that can
be NaN are modelled as `Option Int` (`none` = NaN), strings as `String` /
`List Char`, regular-expression searches as explicit left-to-right scanners,
and the asynchronous docker provider as a record of oracle functions whose
failures are `Except` values.  `Date.now()`, `Date.parse` and
`Date.toISOString` are opaque parameters.
-/

namespace Docklean

/-! ## JavaScript number primitives (`none` models NaN) -/

/-- JS `+` on numbers that may be NaN. -/
def jsAdd : Option Int → Option Int → Option Int
  | some a, some b => some (a + b)
  | _, _ => none

/-- JS `x >= limit` where `x` may be NaN (NaN comparisons are false). -/
def jsGeB : Option Int → Int → Bool
  | some a, b => decide (b ≤ a)
  | none, _ => false

/-! ## Character classes used by the regular expressions in `docker.ts` -/

def isAsciiDigit (c : Char) : Bool := decide ('0' ≤ c) && decide (c ≤ '9')

/-- The character class `[0-9.]` of `parseDockerSize`. -/
def isDigitDot (c : Char) : Bool := isAsciiDigit c || decide (c = '.')

/-- The JS `\s` class (restricted to the ASCII whitespace actually produced
by docker output). -/
def isJsSpace (c : Char) : Bool :=
  decide (c = ' ') || decide (c = '\t') || decide (c = '\n') || decide (c = '\r') ||
    decide (c = '\x0b') || decide (c = '\x0c')

/-- The class `[A-Za-z]`. -/
def isAsciiLetter (c : Char) : Bool :=
  (decide ('a' ≤ c) && decide (c ≤ 'z')) || (decide ('A' ≤ c) && decide (c ≤ 'Z'))

/-- `String.prototype.trim` on a character list. -/
def jsTrimChars (l : List Char) : List Char :=
  ((l.dropWhile isJsSpace).reverse.dropWhile isJsSpace).reverse

/-- Value of a run of decimal digits. -/
def digitsToNat (l : List Char) : Nat :=
  l.foldl (fun n c => 10 * n + (c.toNat - '0'.toNat)) 0

/-- JS `Number()` applied to a nonempty string drawn from `[0-9.]+`:
NaN (`none`) unless there is at most one dot and at least one digit. -/
def jsNumOfMagnitude (m : List Char) : Option ℚ :=
  if m.count '.' ≤ 1 ∧ m.any isAsciiDigit then
    let ip := m.takeWhile (fun c => !decide (c = '.'))
    let fp := (m.dropWhile (fun c => !decide (c = '.'))).drop 1
    some ((digitsToNat ip : ℚ) + (digitsToNat fp : ℚ) / (10 : ℚ) ^ fp.length)
  else none

/-- `Math.round` (round half towards +∞) on the exact rational value. -/
def jsRound (q : ℚ) : Int := ⌊q + 1 / 2⌋

/-- Recognise one of the unit alternatives `B|kB|KB|MB|GB|TB` (case
insensitively) at the head of the list, returning the consumed characters. -/
def unitAt : List Char → Option (List Char)
  | [] => none
  | c :: cs =>
    if c.toLower = 'b' then some [c]
    else if c.toLower = 'k' ∨ c.toLower = 'm' ∨ c.toLower = 'g' ∨ c.toLower = 't' then
      match cs with
      | c2 :: _ => if c2.toLower = 'b' then some [c, c2] else none
      | [] => none
    else none

/-- Decimal (1000-based) multiplier table of `parseDockerSize`. -/
def multOfUnit (u : List Char) : Nat :=
  match u.map Char.toLower with
  | ['b'] => 1
  | ['k', 'b'] => 1000
  | ['m', 'b'] => 1000 ^ 2
  | ['g', 'b'] => 1000 ^ 3
  | ['t', 'b'] => 1000 ^ 4
  | _ => 1

/-- Left-to-right search of `/([0-9.]+)\s*(B|kB|KB|MB|GB|TB)/i`, as a JS
regex engine performs it: at each start position a maximal `[0-9.]` run,
then optional whitespace, then a unit; on failure the start advances by
one character.  Returns the captured magnitude and unit of the first
(leftmost) match. -/
def findSizeMatch : List Char → Option (List Char × List Char)
  | [] => none
  | c :: rest =>
    if isDigitDot c then
      match unitAt (((c :: rest).dropWhile isDigitDot).dropWhile isJsSpace) with
      | some u => some ((c :: rest).takeWhile isDigitDot, u)
      | none => findSizeMatch rest
    else findSizeMatch rest

/-- Core of `parseDockerSize` from `src/docker.ts` on the character list of
a nonempty input string. -/
def parseDockerSizeChars (l : List Char) : Option Int :=
  match findSizeMatch (jsTrimChars l) with
  | none => some 0
  | some (m, u) =>
    match jsNumOfMagnitude m with
    | none => none
    | some q => some (jsRound (q * (multOfUnit u : ℚ)))

/-- `parseDockerSize(size?: string): number` from `src/docker.ts`.
`none` input is JS `undefined`; the result `none` is JS `NaN` (reachable
when the matched magnitude has several dots, e.g. `"1.2.3 MB"`). -/
def parseDockerSize : Option String → Option Int
  | none => some 0
  | some s => if s = "" then some 0 else parseDockerSizeChars s.data

/-! ### Declarative characterisation of the size regex, used to state C10 -/

/-- A recognised size-unit token: one of `B`, `kB`, `KB`, `MB`, `GB`, `TB`
up to case (stated on the lowercased characters). -/
def isUnitToken (u : List Char) : Prop :=
  u.map Char.toLower ∈ [['b'], ['k', 'b'], ['m', 'b'], ['g', 'b'], ['t', 'b']]

instance (u : List Char) : Decidable (isUnitToken u) := by
  unfold isUnitToken
  infer_instance

/-- The characters `l` contain, at offset `pre.length`, a decimal-magnitude
run `m`, optional whitespace `sp`, and a recognised unit `u`. -/
def SizeOccurrence (l pre m sp u : List Char) : Prop :=
  (∃ post, l = pre ++ m ++ sp ++ u ++ post)
  ∧ m ≠ [] ∧ (∀ c ∈ m, isDigitDot c = true) ∧ (∀ c ∈ sp, isJsSpace c = true)
  ∧ isUnitToken u

/-- `(m, u)` is the leftmost magnitude-plus-unit occurrence in `l`. -/
def FirstSizeOccurrence (l m u : List Char) : Prop :=
  ∃ pre sp, SizeOccurrence l pre m sp u
    ∧ ∀ pre' m' sp' u', SizeOccurrence l pre' m' sp' u' → pre.length ≤ pre'.length

/-! ## Free-text scanners of `clean.ts` (`parsePrunedCount`,
`parseReclaimedBytes`) and of the cache branches -/

/-- Case-insensitive literal match: does `pat` (given in lowercase) occur at
the head of `l`? -/
def lowerEqFront : List Char → List Char → Bool
  | [], _ => true
  | _ :: _, [] => false
  | p :: ps, c :: cs => decide (p = c.toLower) && lowerEqFront ps cs

def deletedKindWords : List (List Char) :=
  ["containers".data, "images".data, "volumes".data, "networks".data]

/-- One attempt of `/Deleted (?:Containers|Images|Volumes|Networks):\s*([0-9]+)/i`
anchored at the head of `l`; yields the captured count. -/
def tryDeletedHere (l : List Char) : Option Nat :=
  if lowerEqFront "deleted ".data l then
    let t := l.drop 8
    match deletedKindWords.find? (fun w => lowerEqFront w t) with
    | none => none
    | some w =>
      match t.drop w.length with
      | ':' :: t3 =>
        let ds := (t3.dropWhile isJsSpace).takeWhile isAsciiDigit
        if ds = [] then none else some (digitsToNat ds)
      | _ => none
  else none

/-- All counts found by the global regex of `parsePrunedCount`, scanning
left to right. -/
def prunedCountList : List Char → List Nat
  | [] => []
  | c :: rest =>
    match tryDeletedHere (c :: rest) with
    | some n => n :: prunedCountList rest
    | none => prunedCountList rest

/-- `parsePrunedCount` from `src/clean.ts`: sums the per-match trailing
numbers of every `"Deleted <Kind>: N"` occurrence. -/
def parsePrunedCount (s : String) : Nat := (prunedCountList s.data).sum

/-- First match of `/<label>\s*([0-9.]+\s*[A-Za-z]+)/i`, returning the
captured group (magnitude, optional whitespace, unit letters). -/
def findLabeledCapture (label : List Char) : List Char → Option (List Char)
  | [] => none
  | c :: rest =>
    if lowerEqFront label (c :: rest) then
      let t1 := ((c :: rest).drop label.length).dropWhile isJsSpace
      let ds := t1.takeWhile isDigitDot
      if ds = [] then findLabeledCapture label rest
      else
        let t2 := t1.drop ds.length
        let sp := t2.takeWhile isJsSpace
        let ls := (t2.drop sp.length).takeWhile isAsciiLetter
        if ls = [] then findLabeledCapture label rest
        else some (ds ++ sp ++ ls)
    else findLabeledCapture label rest

def totalReclaimedLabel : List Char := "total reclaimed space:".data

def totalReclaimableLabel : List Char := "total reclaimable:".data

/-- `parseReclaimedBytes` from `src/clean.ts`. -/
def parseReclaimedBytes (out : String) : Option Int :=
  match findLabeledCapture totalReclaimedLabel out.data with
  | none => some 0
  | some cap => parseDockerSize (some (String.mk cap))

/-! ## Data model (`src/types.ts`) -/

inductive ResourceType
  | containers
  | images
  | volumes
  | networks
  | cache
deriving DecidableEq

/-- `ResourceItem` from `src/types.ts`.  The `raw` field (the original
provider record, preserved only for diagnostics/JSON display) is omitted:
no engine logic reads it. -/
structure ResourceItem where
  id : String
  name : String
  size : Option String
  createdAt : Option String
  lastUsed : Option String
deriving DecidableEq

structure ResourceSummary where
  type : ResourceType
  label : String
  items : List ResourceItem
  reclaimableBytes : Option Int

structure ScanResult where
  summaries : List ResourceSummary
  totalReclaimableBytes : Option Int

/-! ## `src/docker.ts` helpers -/

/-- `filterUntilTimestamp` from `src/docker.ts`; `Date.now()` and
`new Date(..).toISOString()` are the opaque parameters `now` and `toISO`.
A threshold of `0` is falsy in JS, hence yields no cutoff. -/
def filterUntilTimestamp (now : Int) (toISO : Int → String) : Option Int → Option String
  | none => none
  | some t => if t = 0 then none else some (toISO (now - t))

/-- `isSystemNetwork` from `src/docker.ts`. -/
def isSystemNetwork (name : String) : Bool :=
  decide (name = "bridge") || decide (name = "host") || decide (name = "none")

/-! ## Age filter (`applyOlderThan` in `src/scan.ts`) -/

/-- `applyOlderThan` from `src/scan.ts`.  `dateParse` is the opaque
`Date.parse` (`none` = NaN); `now` is `Date.now()`.  A missing or zero
threshold is falsy and disables filtering; an item with a missing or empty
`createdAt` is falsy and is dropped when a threshold applies. -/
def applyOlderThan (dateParse : String → Option Int) (now : Int)
    (items : List ResourceItem) (olderThanMs : Option Int) : List ResourceItem :=
  match olderThanMs with
  | none => items
  | some t =>
    if t = 0 then items
    else
      let cutoff := now - t
      items.filter fun item =>
        match item.createdAt with
        | none => false
        | some s =>
          if s = "" then false
          else
            match dateParse s with
            | none => false
            | some created => decide (cutoff ≤ created)

/-- The retention rule as the spec states it: `createdAt` is present and
parses to a point in time at or after the cutoff `now - threshold`. -/
def ageRetains (dateParse : String → Option Int) (now threshold : Int)
    (i : ResourceItem) : Bool :=
  match i.createdAt with
  | some s =>
    match dateParse s with
    | some created => decide (now - threshold ≤ created)
    | none => false
  | none => false

/-! ## Size selectors (`src/scan.ts`) -/

/-- Stable insertion: place `x` before the first `y` it may precede.
`Array.prototype.sort` is required (ES2019) to be a stable sort consistent
with the comparator, which this realises. -/
def insertSorted (le : α → α → Bool) (x : α) : List α → List α
  | [] => [x]
  | y :: ys => if le x y then x :: y :: ys else y :: insertSorted le x ys

def stableSort (le : α → α → Bool) : List α → List α
  | [] => []
  | x :: xs => insertSorted le x (stableSort le xs)

/-- The comparator `(a, b) => sizeB - sizeA` under the ECMA `SortCompare`
rule that a NaN comparator value is treated as `+0`: `a` may precede `b`
iff the comparator is `≤ 0`, i.e. `size b ≤ size a`, and always when either
size is NaN. -/
def jsSortLe (a b : Option Int) : Bool :=
  match a, b with
  | some x, some y => decide (y ≤ x)
  | _, _ => true

def sizeLe (a b : ResourceItem) : Bool :=
  jsSortLe (parseDockerSize a.size) (parseDockerSize b.size)

/-- `sortBySize` from `src/scan.ts`: descending stable sort by parsed size. -/
def sortBySize (items : List ResourceItem) : List ResourceItem :=
  stableSort sizeLe items

/-- `Array.prototype.slice(0, n)` (negative `n` counts from the end). -/
def jsSlice (l : List α) (n : Int) : List α :=
  if n < 0 then l.take (l.length - (-n).toNat) else l.take n.toNat

/-- `selectTopN` from `src/scan.ts`. -/
def selectTopN (items : List ResourceItem) (n : Int) : List ResourceItem :=
  jsSlice items n

/-- Loop of `selectUntilSpaceLimit`: push the item, add its parsed size to
the running total, stop once the total is `>=` the limit. -/
def selectUntilAux (limitBytes : Int) (totalBytes : Option Int) :
    List ResourceItem → List ResourceItem
  | [] => []
  | item :: rest =>
    let t := jsAdd totalBytes (parseDockerSize item.size)
    if jsGeB t limitBytes then [item] else item :: selectUntilAux limitBytes t rest

/-- `selectUntilSpaceLimit` from `src/scan.ts`. -/
def selectUntilSpaceLimit (items : List ResourceItem) (limitBytes : Int) : List ResourceItem :=
  selectUntilAux limitBytes (some 0) items

/-- `applySizeFilters` from `src/scan.ts`.  `!top && !limitSpaceBytes`
is the JS falsy test, true for `undefined` and for `0`. -/
def applySizeFilters (items : List ResourceItem) (top limitSpaceBytes : Option Int) :
    List ResourceItem :=
  if (top = none ∨ top = some 0) ∧ (limitSpaceBytes = none ∨ limitSpaceBytes = some 0) then
    items
  else
    let sorted := sortBySize items
    match top with
    | some n => selectTopN sorted n
    | none =>
      match limitSpaceBytes with
      | some l => selectUntilSpaceLimit sorted l
      | none => sorted

/-! ## Cleanup orchestrator (`src/clean.ts`) -/

/-- A JS exception: either an `Error` object (whose `.message` is used) or
any other thrown value (passed through `String(...)`). -/
inductive JsError
  | errObj (message : String)
  | other (str : String)
deriving DecidableEq

/-- `error instanceof Error ? error.message : String(error)`. -/
def jsErrorMessage : JsError → String
  | .errObj m => m
  | .other s => s

/-- One mutating docker invocation. -/
inductive DockerCall
  | prune (t : ResourceType) (filterUntil : Option String) (includeAllImages : Bool)
  | rmContainers (ids : List String)
  | rmImages (ids : List String)
  | rmVolumes (ids : List String)
  | rmNetworks (ids : List String)
deriving DecidableEq

/-- The mutating surface of the docker provider, as oracle functions;
an `Except.error` models the awaited promise rejecting. -/
structure DockerProvider where
  prune : ResourceType → Option String → Bool → Except JsError String
  removeContainers : List String → Except JsError String
  removeImages : List String → Except JsError String
  removeVolumes : List String → Except JsError String
  removeNetworks : List String → Except JsError String

def runCall (prov : DockerProvider) : DockerCall → Except JsError String
  | .prune t f a => prov.prune t f a
  | .rmContainers ids => prov.removeContainers ids
  | .rmImages ids => prov.removeImages ids
  | .rmVolumes ids => prov.removeVolumes ids
  | .rmNetworks ids => prov.removeNetworks ids

/-- `CleanOptions` from `src/clean.ts`; the per-kind records are total
functions (JS `Record` access on a missing key is handled by the code's
falsy guards, which the totalisation absorbs). -/
structure CleanOptions where
  resources : List ResourceType
  olderThanMs : Option Int := none
  dryRun : Bool
  includeAllImages : Bool
  expectedCounts : ResourceType → Nat
  selectedIds : Option (ResourceType → List String) := none
  estimatedBytes : Option (ResourceType → Int) := none

structure CleanResult where
  removed : ResourceType → Nat
  failures : ResourceType → List String
  reclaimedBytes : Option Int

/-- Loop state: the two per-kind records, the running reclaimed-bytes
accumulator and the transcript of provider calls issued so far. -/
structure CleanState where
  removed : ResourceType → Nat
  failures : ResourceType → List String
  reclaimedBytes : Option Int
  calls : List DockerCall

def updNat (f : ResourceType → Nat) (t : ResourceType) (v : Nat) : ResourceType → Nat :=
  fun t' => if t' = t then v else f t'

def pushMsg (f : ResourceType → List String) (t : ResourceType) (m : String) :
    ResourceType → List String :=
  fun t' => if t' = t then f t ++ [m] else f t'

/-- `parsePrunedCount(output) || options.expectedCounts[type]` — JS `||`
falls back whenever the left operand is falsy, i.e. equals 0 (whether no
count line was found or a count of literally `0` was parsed). -/
def prunedFallback (out : String) (expected : Nat) : Nat :=
  if parsePrunedCount out = 0 then expected else parsePrunedCount out

/-- The explicit-removal call of the identifier branch (`switch (type)` in
`src/clean.ts`); the switch has no `cache` arm. -/
def removeCall : ResourceType → List String → Option DockerCall
  | .containers, ids => some (.rmContainers ids)
  | .images, ids => some (.rmImages ids)
  | .volumes, ids => some (.rmVolumes ids)
  | .networks, ids => some (.rmNetworks ids)
  | .cache, _ => none

/-- `reclaimedBytes += options.estimatedBytes[type] || 0`, guarded by
`if (options.estimatedBytes)`. -/
def addEstimate (opts : CleanOptions) (t : ResourceType) (r : Option Int) : Option Int :=
  match opts.estimatedBytes with
  | some est => jsAdd r (some (est t))
  | none => r

/-- One iteration of the `for (const type of options.resources)` loop of
`cleanResources` in `src/clean.ts`. -/
def cleanStep (opts : CleanOptions) (prov : DockerProvider) (filterUntil : Option String)
    (st : CleanState) (t : ResourceType) : CleanState :=
  match opts.selectedIds with
  | none =>
    let c : DockerCall := .prune t filterUntil (opts.includeAllImages && decide (t = .images))
    match runCall prov c with
    | .ok out =>
      { st with
        removed := updNat st.removed t (prunedFallback out (opts.expectedCounts t)),
        reclaimedBytes := jsAdd st.reclaimedBytes (parseReclaimedBytes out),
        calls := st.calls ++ [c] }
    | .error e =>
      { st with failures := pushMsg st.failures t (jsErrorMessage e), calls := st.calls ++ [c] }
  | some sel =>
    if t = ResourceType.cache then
      let c : DockerCall := .prune t filterUntil false
      match runCall prov c with
      | .ok out =>
        { st with
          removed := updNat st.removed t (prunedFallback out (opts.expectedCounts t)),
          reclaimedBytes := jsAdd st.reclaimedBytes (parseReclaimedBytes out),
          calls := st.calls ++ [c] }
      | .error e =>
        { st with failures := pushMsg st.failures t (jsErrorMessage e), calls := st.calls ++ [c] }
    else
      let ids := sel t
      if 0 < ids.length then
        match removeCall t ids with
        | some c =>
          match runCall prov c with
          | .ok _out =>
            { st with
              removed := updNat st.removed t ids.length,
              reclaimedBytes := addEstimate opts t st.reclaimedBytes,
              calls := st.calls ++ [c] }
          | .error e =>
            { st with failures := pushMsg st.failures t (jsErrorMessage e), calls := st.calls ++ [c] }
        | none =>
          -- dead code: `t ≠ cache` here, so the switch always matches
          { st with reclaimedBytes := addEstimate opts t st.reclaimedBytes }
      else st

def initialCleanState : CleanState := ⟨fun _ => 0, fun _ => [], some 0, []⟩

/-- `cleanResources` from `src/clean.ts`, also returning the transcript of
provider calls issued. -/
def cleanResources (now : Int) (toISO : Int → String) (opts : CleanOptions)
    (prov : DockerProvider) : CleanResult × List DockerCall :=
  if opts.dryRun then (⟨initialCleanState.removed, initialCleanState.failures, some 0⟩, [])
  else
    let fu := filterUntilTimestamp now toISO opts.olderThanMs
    let final := opts.resources.foldl (cleanStep opts prov fu) initialCleanState
    (⟨final.removed, final.failures, final.reclaimedBytes⟩, final.calls)

/-! Abstract per-kind views of one loop iteration, used to state the
claims; each is proved to agree with `cleanStep` below. -/

/-- Which provider call the loop body issues for kind `t`
(`none` = no call is made). -/
def kindCall (opts : CleanOptions) (filterUntil : Option String) (t : ResourceType) :
    Option DockerCall :=
  match opts.selectedIds with
  | none => some (.prune t filterUntil (opts.includeAllImages && decide (t = .images)))
  | some sel =>
    if t = ResourceType.cache then some (.prune t filterUntil false)
    else if 0 < (sel t).length then removeCall t (sel t)
    else none

/-- Outcome of the provider call issued for kind `t`, if any. -/
def kindResult (opts : CleanOptions) (prov : DockerProvider) (fu : Option String)
    (t : ResourceType) : Option (Except JsError String) :=
  (kindCall opts fu t).map (runCall prov)

/-- New value of `removed[t]` after one loop iteration, as a function of
the previous value. -/
def stepRemovedFn (opts : CleanOptions) (prov : DockerProvider) (fu : Option String)
    (t : ResourceType) (old : Nat) : Nat :=
  match kindResult opts prov fu t with
  | some (.ok out) =>
    match opts.selectedIds with
    | none => prunedFallback out (opts.expectedCounts t)
    | some sel =>
      if t = ResourceType.cache then prunedFallback out (opts.expectedCounts t)
      else (sel t).length
  | _ => old

/-- New value of `failures[t]` after one loop iteration. -/
def stepFailuresFn (opts : CleanOptions) (prov : DockerProvider) (fu : Option String)
    (t : ResourceType) (old : List String) : List String :=
  match kindResult opts prov fu t with
  | some (.error e) => old ++ [jsErrorMessage e]
  | _ => old

/-- Amount added to the reclaimed-bytes accumulator by one loop iteration
(`some 0` when nothing is added). -/
def stepContrib (opts : CleanOptions) (prov : DockerProvider) (fu : Option String)
    (t : ResourceType) : Option Int :=
  match kindResult opts prov fu t with
  | some (.ok out) =>
    match opts.selectedIds with
    | none => parseReclaimedBytes out
    | some _ =>
      if t = ResourceType.cache then parseReclaimedBytes out
      else
        match opts.estimatedBytes with
        | some est => some (est t)
        | none => some 0
  | _ => some 0

def updList (f : ResourceType → List String) (k : ResourceType) (v : List String) :
    ResourceType → List String :=
  fun t => if t = k then v else f t

/-! ## Scan orchestrator (`src/scan.ts`) -/

/-- Raw `docker ps -a --format json` record (only the fields the scan
reads; every field of the JS `Record<string, string>` may be absent). -/
structure RawContainer where
  State : Option String := none
  ID : Option String := none
  ContainerID : Option String := none
  Names : Option String := none
  Name : Option String := none
  Size : Option String := none
  CreatedAt : Option String := none
  RunningFor : Option String := none
  Status : Option String := none

structure RawImage where
  ID : Option String := none
  Repository : Option String := none
  Tag : Option String := none
  Size : Option String := none
  CreatedAt : Option String := none
  CreatedSince : Option String := none

structure RawVolume where
  Name : Option String := none
  Driver : Option String := none
  CreatedAt : Option String := none

structure RawNetwork where
  ID : Option String := none
  Name : Option String := none
  CreatedAt : Option String := none

structure RawDfRow where
  Reclaimable : Option String := none

/-- The read-only docker surface the scan consumes, as oracle data:
`dockerPsAll`, `dockerImages`, `dockerVolumes(true)`, `dockerNetworks(true)`,
`dockerBuilderPruneDryRun` and `dockerSystemDf`. -/
structure ScanProvider where
  psAll : List RawContainer
  images : List RawImage
  volumes : List RawVolume
  networks : List RawNetwork
  builderPruneDryRun : Option String → String
  systemDf : List RawDfRow

structure ScanOptions where
  includeContainers : Bool
  includeImages : Bool
  includeVolumes : Bool
  includeNetworks : Bool
  includeCache : Bool
  olderThanMs : Option Int := none
  includeAllImages : Bool := false
  top : Option Int := none
  limitSpaceBytes : Option Int := none

/-- JS `a || b` on a possibly-undefined string with fallback `b`
(an empty string is falsy). -/
def jsOrElse (a : Option String) (b : String) : String :=
  match a with
  | some s => if s = "" then b else s
  | none => b

/-- JS `a || b` keeping optionality (used for `lastUsed`). -/
def jsOrOpt (a b : Option String) : Option String :=
  match a with
  | some s => if s = "" then b else some s
  | none => b

/-- `parseCreatedAt` from `src/scan.ts` (`!raw` also catches `""`). -/
def parseCreatedAt (raw : Option String) : Option String :=
  match raw with
  | none => none
  | some s => if s = "" then none else some s

/-- `["exited", "dead"].includes(container.State?.toLowerCase?.() ?? "")`. -/
def isStoppedContainer (c : RawContainer) : Bool :=
  let st := match c.State with | some s => s.toLower | none => ""
  decide (st = "exited") || decide (st = "dead")

def containerItem (c : RawContainer) : ResourceItem :=
  { id := jsOrElse c.ID (jsOrElse c.ContainerID ""),
    name := jsOrElse c.Names (jsOrElse c.Name ""),
    size := some (jsOrElse c.Size ""),
    createdAt := parseCreatedAt c.CreatedAt,
    lastUsed := jsOrOpt c.RunningFor c.Status }

/-- `(image.Repository ?? "") === "<none>" || (image.Tag ?? "") === "<none>"`. -/
def isDanglingImage (img : RawImage) : Bool :=
  decide (img.Repository.getD "" = "<none>") || decide (img.Tag.getD "" = "<none>")

def imageItem (img : RawImage) : ResourceItem :=
  { id := jsOrElse img.ID "",
    name := img.Repository.getD "" ++ ":" ++ img.Tag.getD "",
    size := some (jsOrElse img.Size ""),
    createdAt := parseCreatedAt img.CreatedAt,
    lastUsed := img.CreatedSince }

def volumeItem (v : RawVolume) : ResourceItem :=
  { id := jsOrElse v.Name (jsOrElse v.Driver ""),
    name := jsOrElse v.Name "",
    size := some "",
    createdAt := parseCreatedAt v.CreatedAt,
    lastUsed := none }

def networkItem (n : RawNetwork) : ResourceItem :=
  { id := jsOrElse n.ID "",
    name := jsOrElse n.Name "",
    size := some "",
    createdAt := parseCreatedAt n.CreatedAt,
    lastUsed := none }

/-- `items.reduce((sum, item) => sum + parseDockerSize(item.size), 0)`. -/
def sumParsedSizes (items : List ResourceItem) : Option Int :=
  items.foldl (fun s i => jsAdd s (parseDockerSize i.size)) (some 0)

/-- `df.find((row) => row.Reclaimable)`, yielding the (truthy) size string
of the first matching row. -/
def dfFindReclaimable (rows : List RawDfRow) : Option String :=
  match rows.find? (fun r => match r.Reclaimable with
      | some s => !decide (s = "")
      | none => false) with
  | some row => row.Reclaimable
  | none => none

/-- The `if (options.includeContainers)` block of `scanResources`:
the pushed summary (as a sublist) and the amount added to the running
`totalReclaimableBytes` (`some 0` when skipped). -/
def containersSeg (dateParse : String → Option Int) (now : Int) (opts : ScanOptions)
    (prov : ScanProvider) : List ResourceSummary × Option Int :=
  if opts.includeContainers then
    let items := (prov.psAll.filter isStoppedContainer).map containerItem
    let filtered := applySizeFilters (applyOlderThan dateParse now items opts.olderThanMs)
        opts.top opts.limitSpaceBytes
    let rb := sumParsedSizes filtered
    ([{ type := .containers, label := "Stopped containers", items := filtered,
        reclaimableBytes := rb }], rb)
  else ([], some 0)

/-- The `if (options.includeImages)` block of `scanResources`. -/
def imagesSeg (dateParse : String → Option Int) (now : Int) (opts : ScanOptions)
    (prov : ScanProvider) : List ResourceSummary × Option Int :=
  if opts.includeImages then
    let items := ((prov.images.filter
        (fun img => opts.includeAllImages || isDanglingImage img)).map imageItem)
    let filtered := applySizeFilters (applyOlderThan dateParse now items opts.olderThanMs)
        opts.top opts.limitSpaceBytes
    let rb := sumParsedSizes filtered
    ([{ type := .images,
        label := if opts.includeAllImages then "Unused images" else "Dangling images",
        items := filtered, reclaimableBytes := rb }], rb)
  else ([], some 0)

/-- The `if (options.includeVolumes)` block of `scanResources` (adds
nothing to the running total). -/
def volumesSeg (dateParse : String → Option Int) (now : Int) (opts : ScanOptions)
    (prov : ScanProvider) : List ResourceSummary :=
  if opts.includeVolumes then
    let items := prov.volumes.map volumeItem
    let filtered := applyOlderThan dateParse now items opts.olderThanMs
    [{ type := .volumes, label := "Unused volumes", items := filtered,
       reclaimableBytes := some 0 }]
  else []

/-- The `if (options.includeNetworks)` block of `scanResources` (adds
nothing to the running total). -/
def networksSeg (dateParse : String → Option Int) (now : Int) (opts : ScanOptions)
    (prov : ScanProvider) : List ResourceSummary :=
  if opts.includeNetworks then
    let items := (prov.networks.filter
        (fun n => !isSystemNetwork (n.Name.getD ""))).map networkItem
    let filtered := applyOlderThan dateParse now items opts.olderThanMs
    [{ type := .networks, label := "Unused networks", items := filtered,
       reclaimableBytes := some 0 }]
  else []

/-- The `if (options.includeCache)` block of `scanResources`. -/
def cacheSeg (now : Int) (toISO : Int → String) (opts : ScanOptions)
    (prov : ScanProvider) : List ResourceSummary × Option Int :=
  if opts.includeCache then
    let fu := filterUntilTimestamp now toISO opts.olderThanMs
    let out := prov.builderPruneDryRun fu
    let rb := match findLabeledCapture totalReclaimableLabel out.data with
      | some cap => parseDockerSize (some (String.mk cap))
      | none => some 0
    ([{ type := .cache, label := "Builder cache", items := [], reclaimableBytes := rb }], rb)
  else ([], some 0)

/-- The value of `totalReclaimableBytes` accumulated by the per-kind
blocks, before the disk-usage fallback. -/
def scanPreTotal (dateParse : String → Option Int) (now : Int) (toISO : Int → String)
    (opts : ScanOptions) (prov : ScanProvider) : Option Int :=
  jsAdd (jsAdd (jsAdd (some 0) (containersSeg dateParse now opts prov).2)
    (imagesSeg dateParse now opts prov).2) (cacheSeg now toISO opts prov).2

/-- `scanResources` from `src/scan.ts`: build the per-kind summaries in
fixed order, accumulate the reclaimable total, and when that total is
exactly `0` substitute the disk-usage summary figure, if any. -/
def scanResources (dateParse : String → Option Int) (now : Int) (toISO : Int → String)
    (opts : ScanOptions) (prov : ScanProvider) : ScanResult :=
  { summaries := (containersSeg dateParse now opts prov).1 ++ (imagesSeg dateParse now opts prov).1
      ++ volumesSeg dateParse now opts prov ++ networksSeg dateParse now opts prov
      ++ (cacheSeg now toISO opts prov).1,
    totalReclaimableBytes :=
      if scanPreTotal dateParse now toISO opts prov = some 0 then
        match dfFindReclaimable prov.systemDf with
        | some s => parseDockerSize (some s)
        | none => scanPreTotal dateParse now toISO opts prov
      else scanPreTotal dateParse now toISO opts prov }

/-- Parsed size as a plain integer (`0` for NaN); agrees with
`parseDockerSize` whenever the latter is a number. -/
def sizeValInt (i : ResourceItem) : Int := (parseDockerSize i.size).getD 0

/-- Sum of the parsed sizes of a list of items, as a plain integer. -/
def sumSizeInt (l : List ResourceItem) : Int := (l.map sizeValInt).sum

/-! ## Basic lemmas about the embedding -/

theorem jsNumOfMagnitude_nonneg {m : List Char} {q : ℚ} (h : jsNumOfMagnitude m = some q) :
    0 ≤ q := by
  unfold jsNumOfMagnitude at h
  split at h
  · simp only [Option.some.injEq] at h
    subst h
    positivity
  · exact absurd h (by simp)

theorem parseDockerSize_nonneg : ∀ (o : Option String) (v : Int),
    parseDockerSize o = some v → 0 ≤ v := by
  intro o v h
  match o with
  | none => simp [parseDockerSize] at h; omega
  | some s =>
    rw [parseDockerSize] at h
    split at h
    · simp at h; omega
    · unfold parseDockerSizeChars at h
      split at h
      · simp at h; omega
      · rename_i m u _
        cases hq : jsNumOfMagnitude m with
        | none => rw [hq] at h; simp at h
        | some q =>
          rw [hq] at h
          simp only [Option.some.injEq] at h
          subst h
          have hq0 : 0 ≤ q := jsNumOfMagnitude_nonneg hq
          have : (0 : ℚ) ≤ q * (multOfUnit u : ℚ) := by positivity
          have : (0 : ℚ) ≤ q * (multOfUnit u : ℚ) + 1 / 2 := by linarith
          unfold jsRound
          exact Int.le_floor.mpr (by simpa using this)

theorem sizeValInt_nonneg (i : ResourceItem) : 0 ≤ sizeValInt i := by
  unfold sizeValInt
  cases h : parseDockerSize i.size with
  | none => simp
  | some v => simpa using parseDockerSize_nonneg i.size v h

theorem sumSizeInt_nonneg (l : List ResourceItem) : 0 ≤ sumSizeInt l := by
  unfold sumSizeInt
  induction l with
  | nil => simp
  | cons x xs ih =>
    simp only [List.map_cons, List.sum_cons]
    have := sizeValInt_nonneg x
    unfold sumSizeInt at ih
    omega

/-! ## Stable-sort lemmas -/

section SortLemmas

variable {α : Type}

theorem insertSorted_perm (le : α → α → Bool) (x : α) :
    ∀ l : List α, List.Perm (insertSorted le x l) (x :: l)
  | [] => List.Perm.refl _
  | y :: ys => by
    unfold insertSorted
    by_cases h : le x y
    · simp [h]
    · simp only [Bool.not_eq_true] at h
      simp only [h, Bool.false_eq_true, if_false]
      exact ((insertSorted_perm le x ys).cons y).trans (List.Perm.swap x y ys)

theorem stableSort_perm (le : α → α → Bool) : ∀ l : List α, List.Perm (stableSort le l) l
  | [] => List.Perm.refl _
  | x :: xs =>
    (insertSorted_perm le x (stableSort le xs)).trans ((stableSort_perm le xs).cons x)

variable (key : α → Int)

theorem insertSorted_pairwise (x : α) {l : List α}
    (h : l.Pairwise (fun a b => key b ≤ key a)) :
    (insertSorted (fun a b => decide (key b ≤ key a)) x l).Pairwise
      (fun a b => key b ≤ key a) := by
  induction l with
  | nil => simp [insertSorted]
  | cons y ys ih =>
    rw [List.pairwise_cons] at h
    unfold insertSorted
    by_cases hxy : key y ≤ key x
    · simp only [decide_eq_true hxy, if_true]
      rw [List.pairwise_cons]
      refine ⟨?_, List.pairwise_cons.mpr h⟩
      intro z hz
      rcases List.mem_cons.mp hz with rfl | hz'
      · exact hxy
      · exact le_trans (h.1 z hz') hxy
    · simp only [decide_eq_false hxy, Bool.false_eq_true, if_false]
      rw [List.pairwise_cons]
      refine ⟨?_, ih h.2⟩
      intro z hz
      have hz' := (insertSorted_perm (fun a b => decide (key b ≤ key a)) x ys).mem_iff.mp hz
      rcases List.mem_cons.mp hz' with rfl | hz''
      · exact le_of_lt (lt_of_not_le hxy)
      · exact h.1 z hz''

theorem stableSort_pairwise :
    ∀ l : List α, (stableSort (fun a b => decide (key b ≤ key a)) l).Pairwise
      (fun a b => key b ≤ key a)
  | [] => by simp [stableSort]
  | x :: xs => insertSorted_pairwise key x (stableSort_pairwise xs)

theorem insertSorted_filter (k : Int) (x : α) (l : List α) :
    (insertSorted (fun a b => decide (key b ≤ key a)) x l).filter
        (fun a => decide (key a = k)) =
      if key x = k then x :: l.filter (fun a => decide (key a = k))
      else l.filter (fun a => decide (key a = k)) := by
  induction l with
  | nil => by_cases h : key x = k <;> simp [insertSorted, h]
  | cons y ys ih =>
    unfold insertSorted
    by_cases hle : key y ≤ key x
    · simp only [decide_eq_true hle, if_true]
      by_cases hx : key x = k <;> by_cases hy : key y = k <;>
        simp [List.filter_cons, hx, hy]
    · simp only [decide_eq_false hle, Bool.false_eq_true, if_false]
      have hxk : key x < key y := lt_of_not_le hle
      by_cases hx : key x = k
      · have hy : ¬ key y = k := by omega
        simp [List.filter_cons, hy, ih, hx]
      · by_cases hy : key y = k <;> simp [List.filter_cons, hx, hy, ih]

theorem stableSort_filter (k : Int) :
    ∀ l : List α, (stableSort (fun a b => decide (key b ≤ key a)) l).filter
        (fun a => decide (key a = k)) =
      l.filter (fun a => decide (key a = k))
  | [] => rfl
  | x :: xs => by
    unfold stableSort
    rw [insertSorted_filter key k x]
    by_cases hx : key x = k <;>
      simp [List.filter_cons, hx, stableSort_filter k xs]

theorem insertSorted_congr (le₁ le₂ : α → α → Bool) (x : α) :
    ∀ l : List α, (∀ b ∈ l, le₁ x b = le₂ x b) →
      insertSorted le₁ x l = insertSorted le₂ x l
  | [], _ => rfl
  | y :: ys, h => by
    unfold insertSorted
    rw [h y (List.mem_cons_self y ys)]
    by_cases hy : le₂ x y
    · simp [hy]
    · simp only [Bool.not_eq_true] at hy
      simp only [hy, Bool.false_eq_true, if_false]
      rw [insertSorted_congr le₁ le₂ x ys (fun b hb => h b (List.mem_cons_of_mem y hb))]

theorem stableSort_congr (le₁ le₂ : α → α → Bool) :
    ∀ l : List α, (∀ a ∈ l, ∀ b ∈ l, le₁ a b = le₂ a b) →
      stableSort le₁ l = stableSort le₂ l
  | [], _ => rfl
  | x :: xs, h => by
    unfold stableSort
    rw [stableSort_congr le₁ le₂ xs
      (fun a ha b hb => h a (List.mem_cons_of_mem x ha) b (List.mem_cons_of_mem x hb))]
    exact insertSorted_congr le₁ le₂ x _ fun b hb =>
      h x (List.mem_cons_self x xs) b
        (List.mem_cons_of_mem x ((stableSort_perm le₂ xs).mem_iff.mp hb))

end SortLemmas

/-- When every size parses to a number, the source comparator coincides
with the plain descending comparison of parsed sizes. -/
theorem sortBySize_eq_keySort (items : List ResourceItem)
    (hnum : ∀ i ∈ items, (parseDockerSize i.size).isSome) :
    sortBySize items = stableSort (fun a b => decide (sizeValInt b ≤ sizeValInt a)) items := by
  apply stableSort_congr
  intro a ha b hb
  obtain ⟨va, hva⟩ := Option.isSome_iff_exists.mp (hnum a ha)
  obtain ⟨vb, hvb⟩ := Option.isSome_iff_exists.mp (hnum b hb)
  simp [sizeLe, jsSortLe, hva, hvb, sizeValInt]

theorem sumSizeInt_perm {l₁ l₂ : List ResourceItem} (h : List.Perm l₁ l₂) :
    sumSizeInt l₁ = sumSizeInt l₂ :=
  (h.map sizeValInt).sum_eq

theorem selectUntilAux_cons (L : Int) (tot : Option Int) (item : ResourceItem)
    (rest : List ResourceItem) :
    selectUntilAux L tot (item :: rest) =
      if jsGeB (jsAdd tot (parseDockerSize item.size)) L then [item]
      else item :: selectUntilAux L (jsAdd tot (parseDockerSize item.size)) rest := rfl

/-- Full behaviour of the cumulative-limit loop when all sizes are
numbers and the accumulator is still under the limit. -/
theorem selectUntilAux_spec (L : Int) :
    ∀ (l : List ResourceItem) (acc : Int),
      (∀ i ∈ l, (parseDockerSize i.size).isSome) → acc < L →
      (∃ tl, selectUntilAux L (some acc) l ++ tl = l)
      ∧ (acc + sumSizeInt l < L → selectUntilAux L (some acc) l = l)
      ∧ (L ≤ acc + sumSizeInt l → L ≤ acc + sumSizeInt (selectUntilAux L (some acc) l))
      ∧ (∀ j < (selectUntilAux L (some acc) l).length,
          acc + sumSizeInt ((selectUntilAux L (some acc) l).take j) < L)
  | [], acc, _, hacc => by
    refine ⟨⟨[], rfl⟩, fun _ => rfl, ?_, ?_⟩
    · intro h
      simpa [selectUntilAux, sumSizeInt] using h
    · intro j hj
      simp [selectUntilAux] at hj
  | item :: rest, acc, hnum, hacc => by
    have hv : parseDockerSize item.size = some (sizeValInt item) := by
      obtain ⟨v, hv⟩ := Option.isSome_iff_exists.mp (hnum item (List.mem_cons_self _ _))
      simp [sizeValInt, hv]
    have hsum : sumSizeInt (item :: rest) = sizeValInt item + sumSizeInt rest := by
      simp [sumSizeInt]
    by_cases hge : L ≤ acc + sizeValInt item
    · have hsel : selectUntilAux L (some acc) (item :: rest) = [item] := by
        unfold selectUntilAux
        simp [hv, jsAdd, jsGeB, hge]
      refine ⟨⟨rest, by rw [hsel]; rfl⟩, ?_, ?_, ?_⟩
      · intro hlt
        have := sumSizeInt_nonneg rest
        omega
      · intro _
        rw [hsel]
        simp [sumSizeInt]
        omega
      · intro j hj
        rw [hsel] at hj
        simp at hj
        subst hj
        rw [hsel]
        simpa [sumSizeInt] using hacc
    · push_neg at hge
      have hsel : selectUntilAux L (some acc) (item :: rest) =
          item :: selectUntilAux L (some (acc + sizeValInt item)) rest := by
        rw [selectUntilAux_cons, hv]
        have hc : jsGeB (jsAdd (some acc) (some (sizeValInt item))) L = false := by
          simp [jsAdd, jsGeB, hge.not_le]
        rw [hc]
        simp [jsAdd]
      have hrest := selectUntilAux_spec L rest (acc + sizeValInt item)
        (fun i hi => hnum i (List.mem_cons_of_mem _ hi)) hge
      obtain ⟨⟨tl, htl⟩, hall, hcross, hpref⟩ := hrest
      refine ⟨⟨tl, by rw [hsel]; simp [htl]⟩, ?_, ?_, ?_⟩
      · intro hlt
        rw [hsel, hall (by rw [hsum] at hlt; omega)]
      · intro hge'
        rw [hsel]
        have := hcross (by rw [hsum] at hge'; omega)
        simp [sumSizeInt] at this ⊢
        omega
      · intro j hj
        rw [hsel] at hj ⊢
        cases j with
        | zero => simpa [sumSizeInt] using hacc
        | succ j' =>
          simp only [List.length_cons, Nat.succ_lt_succ_iff] at hj
          have := hpref j' hj
          simp [sumSizeInt] at this ⊢
          omega

theorem applySizeFilters_top (items : List ResourceItem) (n : Int) (hn : n ≠ 0) :
    applySizeFilters items (some n) none = selectTopN (sortBySize items) n := by
  unfold applySizeFilters
  rw [if_neg]
  simp [hn]

theorem applySizeFilters_limit (items : List ResourceItem) (L : Int) (hL : L ≠ 0) :
    applySizeFilters items none (some L) = selectUntilSpaceLimit (sortBySize items) L := by
  unfold applySizeFilters
  rw [if_neg]
  simp [hL]

/-! ## Basic lemmas about the clean loop -/

@[simp] theorem jsAdd_some_some (a b : Int) : jsAdd (some a) (some b) = some (a + b) := rfl

@[simp] theorem jsAdd_none_left (b : Option Int) : jsAdd none b = none := rfl

@[simp] theorem jsAdd_zero_right : ∀ a : Option Int, jsAdd a (some 0) = a
  | some a => by simp [jsAdd]
  | none => rfl

@[simp] theorem jsAdd_zero_left : ∀ a : Option Int, jsAdd (some 0) a = a
  | some a => by simp [jsAdd]
  | none => rfl

theorem updNat_self (f : ResourceType → Nat) (k : ResourceType) : updNat f k (f k) = f := by
  funext t
  by_cases h : t = k <;> simp [updNat, h]

theorem updList_self (f : ResourceType → List String) (k : ResourceType) :
    updList f k (f k) = f := by
  funext t
  by_cases h : t = k <;> simp [updList, h]

theorem pushMsg_eq_updList (f : ResourceType → List String) (k : ResourceType) (m : String) :
    pushMsg f k m = updList f k (f k ++ [m]) := rfl

section CleanLemmas

variable (opts : CleanOptions) (prov : DockerProvider) (fu : Option String)

/-- One loop iteration, described field by field through the per-kind
views. -/
theorem cleanStep_spec (st : CleanState) (k : ResourceType) :
    (cleanStep opts prov fu st k).removed
        = updNat st.removed k (stepRemovedFn opts prov fu k (st.removed k))
    ∧ (cleanStep opts prov fu st k).failures
        = updList st.failures k (stepFailuresFn opts prov fu k (st.failures k))
    ∧ (cleanStep opts prov fu st k).reclaimedBytes
        = jsAdd st.reclaimedBytes (stepContrib opts prov fu k)
    ∧ (cleanStep opts prov fu st k).calls = st.calls ++ (kindCall opts fu k).toList := by
  cases hsel : opts.selectedIds with
  | none =>
    cases hr : runCall prov (.prune k fu (opts.includeAllImages && decide (k = .images))) with
    | ok out =>
      refine ⟨?_, ?_, ?_, ?_⟩ <;>
        simp [cleanStep, stepRemovedFn, stepFailuresFn, stepContrib, kindResult, kindCall,
          hsel, hr, pushMsg_eq_updList, updList_self]
    | error e =>
      refine ⟨?_, ?_, ?_, ?_⟩ <;>
        simp [cleanStep, stepRemovedFn, stepFailuresFn, stepContrib, kindResult, kindCall,
          hsel, hr, pushMsg_eq_updList, updNat_self]
  | some sel =>
    by_cases hc : k = ResourceType.cache
    · subst hc
      cases hr : runCall prov (.prune .cache fu false) with
      | ok out =>
        refine ⟨?_, ?_, ?_, ?_⟩ <;>
          simp [cleanStep, stepRemovedFn, stepFailuresFn, stepContrib, kindResult, kindCall,
            hsel, hr, pushMsg_eq_updList, updList_self]
      | error e =>
        refine ⟨?_, ?_, ?_, ?_⟩ <;>
          simp [cleanStep, stepRemovedFn, stepFailuresFn, stepContrib, kindResult, kindCall,
            hsel, hr, pushMsg_eq_updList, updNat_self]
    · by_cases hl : 0 < (sel k).length
      · have hrc : ∃ c, removeCall k (sel k) = some c := by
          cases k <;> simp [removeCall] at hc ⊢
        obtain ⟨c, hcall⟩ := hrc
        cases hr : runCall prov c with
        | ok out =>
          refine ⟨?_, ?_, ?_, ?_⟩ <;>
            simp [cleanStep, stepRemovedFn, stepFailuresFn, stepContrib, kindResult, kindCall,
              addEstimate, hsel, hc, hl, hcall, hr, pushMsg_eq_updList, updList_self] <;>
            cases hest : opts.estimatedBytes <;> simp [hest]
        | error e =>
          refine ⟨?_, ?_, ?_, ?_⟩ <;>
            simp [cleanStep, stepRemovedFn, stepFailuresFn, stepContrib, kindResult, kindCall,
              hsel, hc, hl, hcall, hr, pushMsg_eq_updList, updNat_self]
      · refine ⟨?_, ?_, ?_, ?_⟩ <;>
          simp [cleanStep, stepRemovedFn, stepFailuresFn, stepContrib, kindResult, kindCall,
            hsel, hc, hl, updNat_self, updList_self]

theorem foldClean_removed (l : List ResourceType) (st : CleanState) (t : ResourceType) :
    (l.foldl (cleanStep opts prov fu) st).removed t =
      l.foldl (fun v k => if t = k then stepRemovedFn opts prov fu k v else v)
        (st.removed t) := by
  induction l generalizing st with
  | nil => rfl
  | cons a l ih =>
    simp only [List.foldl_cons]
    rw [ih]
    congr 1
    rw [(cleanStep_spec opts prov fu st a).1]
    by_cases h : t = a <;> simp [updNat, h]

theorem foldClean_failures (l : List ResourceType) (st : CleanState) (t : ResourceType) :
    (l.foldl (cleanStep opts prov fu) st).failures t =
      l.foldl (fun v k => if t = k then stepFailuresFn opts prov fu k v else v)
        (st.failures t) := by
  induction l generalizing st with
  | nil => rfl
  | cons a l ih =>
    simp only [List.foldl_cons]
    rw [ih]
    congr 1
    rw [(cleanStep_spec opts prov fu st a).2.1]
    by_cases h : t = a <;> simp [updList, h]

theorem foldClean_reclaimed (l : List ResourceType) (st : CleanState) :
    (l.foldl (cleanStep opts prov fu) st).reclaimedBytes =
      l.foldl (fun a k => jsAdd a (stepContrib opts prov fu k)) st.reclaimedBytes := by
  induction l generalizing st with
  | nil => rfl
  | cons a l ih =>
    simp only [List.foldl_cons]
    rw [ih, (cleanStep_spec opts prov fu st a).2.2.1]

theorem foldClean_calls (l : List ResourceType) (st : CleanState) :
    (l.foldl (cleanStep opts prov fu) st).calls =
      st.calls ++ (l.map fun k => (kindCall opts fu k).toList).flatten := by
  induction l generalizing st with
  | nil => simp
  | cons a l ih =>
    simp only [List.foldl_cons, List.map_cons, List.flatten]
    rw [ih, (cleanStep_spec opts prov fu st a).2.2.2]
    simp

/-- Folding a per-kind update over kinds not equal to `t` leaves the value
for `t` unchanged. -/
theorem foldl_skip {β : Type} (g : ResourceType → β → β) (t : ResourceType)
    (l : List ResourceType) (h : t ∉ l) (v : β) :
    l.foldl (fun v k => if t = k then g k v else v) v = v := by
  induction l generalizing v with
  | nil => rfl
  | cons a l ih =>
    simp only [List.mem_cons, not_or] at h
    simp only [List.foldl_cons, if_neg h.1]
    exact ih h.2 v

end CleanLemmas

/-! ## Claim theorems -/

/-- C1: for every item list and every supplied (nonzero) threshold,
`applyOlderThan` retains exactly the items whose `createdAt` is present,
parseable, and at or after `cutoff = now - threshold`; missing or
unparseable `createdAt` drops the item.  With no threshold the input is
returned unchanged.  (A threshold of `0` is falsy in JS and behaves as
"no threshold"; that case is claim C9.) -/
theorem claim1_age_filter (dateParse : String → Option Int) (now t : Int)
    (items : List ResourceItem) (ht : t ≠ 0) (hempty : dateParse "" = none) :
    applyOlderThan dateParse now items (some t) = items.filter (ageRetains dateParse now t)
    ∧ applyOlderThan dateParse now items none = items := by
  constructor
  · unfold applyOlderThan
    dsimp only
    rw [if_neg ht]
    apply List.filter_congr
    intro i _
    unfold ageRetains
    cases hc : i.createdAt with
    | none => rfl
    | some s =>
      by_cases hs : s = ""
      · subst hs
        simp [hempty]
      · simp only [hs, if_false, ite_false]
        cases dateParse s <;> rfl
  · rfl

theorem claim1_age_filter_witness :
    (7 : Int) ≠ 0
    ∧ applyOlderThan (fun s => if s = "t90" then some 90 else none) 100
        [⟨"a", "a", none, some "t90", none⟩, ⟨"b", "b", none, none, none⟩] (some 7)
      = [⟨"a", "a", none, some "t90", none⟩, ⟨"b", "b", none, none, none⟩].filter
          (ageRetains (fun s => if s = "t90" then some 90 else none) 100 7) := by
  refine ⟨by decide, ?_⟩
  exact (claim1_age_filter (fun s => if s = "t90" then some 90 else none) 100 7
    [⟨"a", "a", none, some "t90", none⟩, ⟨"b", "b", none, none, none⟩]
    (by decide) (by decide)).1

/-- C2: with a positive cumulative limit (and sizes that parse to numbers,
so that the JS comparator and accumulator behave arithmetically), the
cumulative-limit selector returns a prefix of the descending-sorted items;
if the total size is below the limit all items are returned, otherwise the
selection's total reaches the limit and every proper prefix of the
selection is still below it (so the crossing item is included). -/
theorem claim2_cumulative_limit (items : List ResourceItem) (L : Int) (hL : 0 < L)
    (hnum : ∀ i ∈ items, (parseDockerSize i.size).isSome) :
    (∃ tl, applySizeFilters items none (some L) ++ tl = sortBySize items)
    ∧ (sumSizeInt items < L → applySizeFilters items none (some L) = sortBySize items)
    ∧ (L ≤ sumSizeInt items → L ≤ sumSizeInt (applySizeFilters items none (some L)))
    ∧ (∀ j < (applySizeFilters items none (some L)).length,
        sumSizeInt ((applySizeFilters items none (some L)).take j) < L) := by
  have hperm : List.Perm (sortBySize items) items := stableSort_perm sizeLe items
  have hnum' : ∀ i ∈ sortBySize items, (parseDockerSize i.size).isSome :=
    fun i hi => hnum i (hperm.mem_iff.mp hi)
  have hr : applySizeFilters items none (some L)
      = selectUntilAux L (some 0) (sortBySize items) :=
    applySizeFilters_limit items L hL.ne'
  have hspec := selectUntilAux_spec L (sortBySize items) 0 hnum' hL
  have hsum : sumSizeInt (sortBySize items) = sumSizeInt items := sumSizeInt_perm hperm
  obtain ⟨hpre, hall, hcross, hproper⟩ := hspec
  refine ⟨?_, ?_, ?_, ?_⟩
  · rw [hr]
    exact hpre
  · intro hlt
    rw [hr]
    exact hall (by omega)
  · intro hge
    rw [hr]
    have := hcross (by omega)
    omega
  · intro j hj
    rw [hr] at hj ⊢
    have := hproper j hj
    omega

theorem claim2_cumulative_limit_witness :
    (0 : Int) < 600000000
    ∧ (∀ i ∈ [(⟨"s", "s", some "100 MB", none, none⟩ : ResourceItem),
          ⟨"l", "l", some "500 MB", none, none⟩,
          ⟨"m", "m", some "300 MB", none, none⟩],
        (parseDockerSize i.size).isSome)
    ∧ (600000000 ≤ sumSizeInt [(⟨"s", "s", some "100 MB", none, none⟩ : ResourceItem),
          ⟨"l", "l", some "500 MB", none, none⟩, ⟨"m", "m", some "300 MB", none, none⟩] →
        600000000 ≤ sumSizeInt (applySizeFilters
          [⟨"s", "s", some "100 MB", none, none⟩, ⟨"l", "l", some "500 MB", none, none⟩,
            ⟨"m", "m", some "300 MB", none, none⟩] none (some 600000000))) :=
  ⟨by decide, by decide,
    (claim2_cumulative_limit
      [⟨"s", "s", some "100 MB", none, none⟩, ⟨"l", "l", some "500 MB", none, none⟩,
        ⟨"m", "m", some "300 MB", none, none⟩] 600000000 (by decide) (by decide)).2.2.1⟩

/-- C3: with positive `N` (and sizes parsing to numbers), top-`N` selection
returns `min N (length)` items, sorted descending by parsed size, ties in
input order (filtering by any fixed size value yields a prefix of the
input's corresponding filtering), and every selected item's size is at
least every rejected item's size. -/
theorem claim3_top_n (items : List ResourceItem) (n : Int) (hn : 0 < n)
    (hnum : ∀ i ∈ items, (parseDockerSize i.size).isSome) :
    (applySizeFilters items (some n) none).length = min n.toNat items.length
    ∧ (applySizeFilters items (some n) none).Pairwise (fun a b => sizeValInt b ≤ sizeValInt a)
    ∧ (∀ k : Int, ∃ tl, (applySizeFilters items (some n) none).filter
          (fun i => decide (sizeValInt i = k)) ++ tl
        = items.filter (fun i => decide (sizeValInt i = k)))
    ∧ (∀ a ∈ applySizeFilters items (some n) none, ∀ b ∈ items,
        b ∉ applySizeFilters items (some n) none → sizeValInt b ≤ sizeValInt a) := by
  have hr : applySizeFilters items (some n) none
      = (stableSort (fun a b => decide (sizeValInt b ≤ sizeValInt a)) items).take n.toNat := by
    rw [applySizeFilters_top items n hn.ne', sortBySize_eq_keySort items hnum]
    unfold selectTopN jsSlice
    rw [if_neg (not_lt.mpr hn.le)]
  set sorted := stableSort (fun a b => decide (sizeValInt b ≤ sizeValInt a)) items with hs
  have hperm : List.Perm sorted items := stableSort_perm _ items
  have hpw : sorted.Pairwise (fun a b => sizeValInt b ≤ sizeValInt a) :=
    stableSort_pairwise sizeValInt items
  refine ⟨?_, ?_, ?_, ?_⟩
  · rw [hr]
    simp [hperm.length_eq]
  · rw [hr]
    exact hpw.sublist (List.take_sublist n.toNat sorted)
  · intro k
    refine ⟨(sorted.drop n.toNat).filter (fun i => decide (sizeValInt i = k)), ?_⟩
    rw [hr, ← List.filter_append, List.take_append_drop]
    exact stableSort_filter sizeValInt k items
  · intro a ha b hb hbr
    have hbs : b ∈ sorted := hperm.mem_iff.mpr hb
    have hsplit : sorted = sorted.take n.toNat ++ sorted.drop n.toNat :=
      (List.take_append_drop n.toNat sorted).symm
    have hbd : b ∈ sorted.drop n.toNat := by
      rcases (List.mem_append.mp (hsplit ▸ hbs)) with h | h
      · exact absurd (hr ▸ h) hbr
      · exact h
    have := (List.pairwise_append.mp (hsplit ▸ hpw)).2.2
    exact this a (hr ▸ ha) b hbd

theorem claim3_top_n_witness :
    (0 : Int) < 2
    ∧ (∀ i ∈ [(⟨"s", "s", some "100 MB", none, none⟩ : ResourceItem),
          ⟨"l", "l", some "500 MB", none, none⟩,
          ⟨"m", "m", some "300 MB", none, none⟩],
        (parseDockerSize i.size).isSome)
    ∧ (applySizeFilters [(⟨"s", "s", some "100 MB", none, none⟩ : ResourceItem),
          ⟨"l", "l", some "500 MB", none, none⟩,
          ⟨"m", "m", some "300 MB", none, none⟩] (some 2) none).length
        = min (2 : Int).toNat 3 :=
  ⟨by decide, by decide,
    (claim3_top_n
      [⟨"s", "s", some "100 MB", none, none⟩, ⟨"l", "l", some "500 MB", none, none⟩,
        ⟨"m", "m", some "300 MB", none, none⟩] 2 (by decide) (by decide)).1⟩

theorem kindCall_prune_filter (opts : CleanOptions) (fu : Option String)
    (k t : ResourceType) (f : Option String) (a : Bool)
    (h : DockerCall.prune t f a ∈ (kindCall opts fu k).toList) : f = fu := by
  unfold kindCall at h
  cases hsel : opts.selectedIds with
  | none =>
    rw [hsel] at h
    simp only [Option.toList_some, List.mem_singleton, DockerCall.prune.injEq] at h
    exact h.2.1
  | some sel =>
    rw [hsel] at h
    by_cases hc : k = ResourceType.cache
    · simp only [hc, if_true, Option.toList_some, List.mem_singleton,
        DockerCall.prune.injEq, if_pos rfl] at h
      exact h.2.1
    · simp only [hc, if_false] at h
      by_cases hl : 0 < (sel k).length
      · simp only [hl, if_true] at h
        cases k <;> simp [removeCall] at h
      · simp only [hl, if_false] at h
        simp at h

/-- C9: a zero age threshold behaves exactly like an absent one: the age
filter returns the input unchanged, `filterUntilTimestamp` yields no
cutoff, and consequently every prune call a cleanup run issues carries no
`until` filter. -/
theorem claim9_zero_threshold (dateParse : String → Option Int) (now : Int)
    (toISO : Int → String) (items : List ResourceItem) (opts : CleanOptions)
    (prov : DockerProvider) (hzero : opts.olderThanMs = some 0) :
    applyOlderThan dateParse now items (some 0) = items
    ∧ filterUntilTimestamp now toISO (some 0) = none
    ∧ (∀ t f a, DockerCall.prune t f a ∈ (cleanResources now toISO opts prov).2 → f = none) := by
  refine ⟨rfl, rfl, ?_⟩
  intro t f a hmem
  unfold cleanResources at hmem
  by_cases hd : opts.dryRun
  · simp [hd] at hmem
  · simp only [hd, Bool.false_eq_true, if_false] at hmem
    rw [foldClean_calls] at hmem
    simp only [initialCleanState, List.nil_append, List.mem_flatten] at hmem
    obtain ⟨cl, hcl, hin⟩ := hmem
    obtain ⟨k, hk, rfl⟩ := List.mem_map.mp hcl
    have := kindCall_prune_filter opts _ k t f a hin
    rw [this, hzero]
    rfl

theorem claim9_zero_threshold_witness :
    ({ resources := [ResourceType.containers], olderThanMs := some 0, dryRun := false,
       includeAllImages := false, expectedCounts := fun _ => 0 } : CleanOptions).olderThanMs
        = some 0
    ∧ (∀ t f a, DockerCall.prune t f a ∈
        (cleanResources 1000 (fun _ => "iso")
          { resources := [ResourceType.containers], olderThanMs := some 0, dryRun := false,
            includeAllImages := false, expectedCounts := fun _ => 0 }
          ⟨fun _ _ _ => .ok "", fun _ => .ok "", fun _ => .ok "", fun _ => .ok "",
            fun _ => .ok ""⟩).2 → f = none) :=
  ⟨rfl,
    (claim9_zero_threshold (fun _ => none) 1000 (fun _ => "iso") [] _ _ rfl).2.2⟩

/-- C4: a dry run returns zero removed counts for every kind, empty
failure lists, zero reclaimed bytes, and issues no provider call at all. -/
theorem claim4_dry_run (now : Int) (toISO : Int → String) (opts : CleanOptions)
    (prov : DockerProvider) (hdry : opts.dryRun = true) (_hne : opts.resources ≠ []) :
    (∀ t, (cleanResources now toISO opts prov).1.removed t = 0)
    ∧ (∀ t, (cleanResources now toISO opts prov).1.failures t = [])
    ∧ (cleanResources now toISO opts prov).1.reclaimedBytes = some 0
    ∧ (cleanResources now toISO opts prov).2 = [] := by
  unfold cleanResources
  rw [if_pos hdry]
  exact ⟨fun _ => rfl, fun _ => rfl, rfl, rfl⟩

theorem claim4_dry_run_witness :
    ({ resources := [ResourceType.containers, ResourceType.images], dryRun := true,
       includeAllImages := false, expectedCounts := fun _ => 5 } : CleanOptions).dryRun = true
    ∧ ([ResourceType.containers, ResourceType.images] : List ResourceType) ≠ []
    ∧ (cleanResources 0 (fun _ => "")
        { resources := [ResourceType.containers, ResourceType.images], dryRun := true,
          includeAllImages := false, expectedCounts := fun _ => 5 }
        ⟨fun _ _ _ => .ok "", fun _ => .ok "", fun _ => .ok "", fun _ => .ok "",
          fun _ => .ok ""⟩).2 = [] :=
  ⟨rfl, by decide,
    (claim4_dry_run 0 (fun _ => "")
      { resources := [ResourceType.containers, ResourceType.images], dryRun := true,
        includeAllImages := false, expectedCounts := fun _ => 5 }
      ⟨fun _ _ _ => .ok "", fun _ => .ok "", fun _ => .ok "", fun _ => .ok "",
        fun _ => .ok ""⟩ rfl (by decide)).2.2.2⟩

/-- C5: when the provider operation for one kind `k` rejects, the error is
caught, stringified and appended to `k`'s failure list; every other kind's
removed count and failure list are exactly those of the same run without
`k`, the reclaimed total is unaffected, and the transcript still contains
the calls of all kinds before and after `k`, in request order. -/
theorem claim5_failure_isolation (now : Int) (toISO : Int → String) (opts : CleanOptions)
    (prov : DockerProvider) (e : JsError) (l₁ l₂ : List ResourceType) (k : ResourceType)
    (hdry : opts.dryRun = false) (hres : opts.resources = l₁ ++ k :: l₂)
    (h1 : k ∉ l₁) (h2 : k ∉ l₂)
    (herr : kindResult opts prov (filterUntilTimestamp now toISO opts.olderThanMs) k
      = some (.error e)) :
    let fu := filterUntilTimestamp now toISO opts.olderThanMs
    (cleanResources now toISO opts prov).1.failures k = [jsErrorMessage e]
    ∧ (∀ t, t ≠ k → (cleanResources now toISO opts prov).1.removed t =
        (cleanResources now toISO { opts with resources := l₁ ++ l₂ } prov).1.removed t)
    ∧ (∀ t, t ≠ k → (cleanResources now toISO opts prov).1.failures t =
        (cleanResources now toISO { opts with resources := l₁ ++ l₂ } prov).1.failures t)
    ∧ (cleanResources now toISO opts prov).1.reclaimedBytes =
        (cleanResources now toISO { opts with resources := l₁ ++ l₂ } prov).1.reclaimedBytes
    ∧ (cleanResources now toISO opts prov).2 =
        (l₁.map fun t => (kindCall opts fu t).toList).flatten
        ++ (kindCall opts fu k).toList
        ++ (l₂.map fun t => (kindCall opts fu t).toList).flatten := by
  intro fu
  have hcontrib : stepContrib opts prov fu k = some 0 := by
    unfold stepContrib
    rw [herr]
  unfold cleanResources
  rw [if_neg (by simp [hdry]), if_neg (by simp [hdry])]
  dsimp only
  refine ⟨?_, ?_, ?_, ?_, ?_⟩
  · rw [foldClean_failures, hres, List.foldl_append,
      foldl_skip (stepFailuresFn opts prov fu) k l₁ h1]
    simp only [List.foldl_cons, if_pos rfl]
    rw [foldl_skip (stepFailuresFn opts prov fu) k l₂ h2]
    unfold stepFailuresFn
    rw [herr]
    rfl
  · intro t ht
    rw [foldClean_removed, foldClean_removed, hres, List.foldl_append, List.foldl_cons,
      if_neg ht, List.foldl_append]
    rfl
  · intro t ht
    rw [foldClean_failures, foldClean_failures, hres, List.foldl_append, List.foldl_cons,
      if_neg ht, List.foldl_append]
    rfl
  · rw [foldClean_reclaimed, foldClean_reclaimed, hres, List.foldl_append, List.foldl_cons,
      hcontrib, jsAdd_zero_right, List.foldl_append]
    rfl
  · rw [foldClean_calls, hres]
    simp [initialCleanState]

/-- C6 counterexample to the claim as stated: the prune output
`"Deleted Containers: 0"` *is* parseable (the count regex matches and
yields `0`), yet the code still falls back to the expected count `5`,
because the fallback `parsePrunedCount(output) || expected` triggers on
any falsy (zero) count, not only on a failed parse. -/
theorem claim6_counterexample :
    prunedCountList "Deleted Containers: 0\nTotal reclaimed space: 0B".data = [0]
    ∧ (cleanResources 0 (fun _ => "")
        { resources := [ResourceType.containers], dryRun := false, includeAllImages := false,
          expectedCounts := fun _ => 5 }
        ⟨fun _ _ _ => .ok "Deleted Containers: 0\nTotal reclaimed space: 0B",
          fun _ => .ok "", fun _ => .ok "", fun _ => .ok "", fun _ => .ok ""⟩).1.removed
        ResourceType.containers = 5 := by
  constructor
  · decide
  · decide

/-- C6 amended: on the bulk path the removed count is the deleted-count
parsed from the prune output, falling back to the expected count from the
scan whenever the parsed count is zero — both when no count line is
present and when a count line reads literally `0`; reclaimed bytes are
accumulated across kinds from the parsed `"Total reclaimed space"` values,
a missing value contributing zero. -/
theorem claim6_bulk_parse (now : Int) (toISO : Int → String) (opts : CleanOptions)
    (prov : DockerProvider) (out : String) (l₁ l₂ : List ResourceType) (k : ResourceType)
    (hdry : opts.dryRun = false) (hsel : opts.selectedIds = none)
    (hres : opts.resources = l₁ ++ k :: l₂) (h1 : k ∉ l₁) (h2 : k ∉ l₂)
    (hok : prov.prune k (filterUntilTimestamp now toISO opts.olderThanMs)
        (opts.includeAllImages && decide (k = .images)) = .ok out) :
    let fu := filterUntilTimestamp now toISO opts.olderThanMs
    (cleanResources now toISO opts prov).1.removed k
      = (if parsePrunedCount out = 0 then opts.expectedCounts k else parsePrunedCount out)
    ∧ (cleanResources now toISO opts prov).1.reclaimedBytes
      = opts.resources.foldl (fun a t => jsAdd a (stepContrib opts prov fu t)) (some 0)
    ∧ stepContrib opts prov fu k = parseReclaimedBytes out
    ∧ (findLabeledCapture totalReclaimedLabel out.data = none →
        parseReclaimedBytes out = some 0) := by
  intro fu
  have hkr : kindResult opts prov fu k = some (.ok out) := by
    unfold kindResult kindCall
    rw [hsel]
    simp [runCall, hok]
  refine ⟨?_, ?_, ?_, ?_⟩
  · unfold cleanResources
    rw [if_neg (by simp [hdry])]
    dsimp only
    rw [foldClean_removed, hres, List.foldl_append,
      foldl_skip (stepRemovedFn opts prov fu) k l₁ h1]
    simp only [List.foldl_cons, if_pos rfl]
    rw [foldl_skip (stepRemovedFn opts prov fu) k l₂ h2]
    unfold stepRemovedFn
    rw [hkr, hsel]
    rfl
  · unfold cleanResources
    rw [if_neg (by simp [hdry])]
    dsimp only
    exact foldClean_reclaimed opts prov fu opts.resources initialCleanState
  · unfold stepContrib
    rw [hkr, hsel]
  · intro h
    unfold parseReclaimedBytes
    rw [h]

theorem claim6_bulk_parse_witness :
    ({ resources := [ResourceType.images], dryRun := false, includeAllImages := false,
        expectedCounts := fun _ => 9 } : CleanOptions).selectedIds = none
    ∧ (cleanResources 0 (fun _ => "")
        { resources := [ResourceType.images], dryRun := false, includeAllImages := false,
          expectedCounts := fun _ => 9 }
        ⟨fun _ _ _ => .ok "Deleted Images: 2\nTotal reclaimed space: 1.2 GB",
          fun _ => .ok "", fun _ => .ok "", fun _ => .ok "", fun _ => .ok ""⟩).1.removed
        ResourceType.images
      = (if parsePrunedCount "Deleted Images: 2\nTotal reclaimed space: 1.2 GB" = 0 then 9
         else parsePrunedCount "Deleted Images: 2\nTotal reclaimed space: 1.2 GB") :=
  ⟨rfl,
    (claim6_bulk_parse 0 (fun _ => "")
      { resources := [ResourceType.images], dryRun := false, includeAllImages := false,
        expectedCounts := fun _ => 9 }
      ⟨fun _ _ _ => .ok "Deleted Images: 2\nTotal reclaimed space: 1.2 GB",
        fun _ => .ok "", fun _ => .ok "", fun _ => .ok "", fun _ => .ok ""⟩
      "Deleted Images: 2\nTotal reclaimed space: 1.2 GB" [] [] ResourceType.images
      rfl rfl rfl (by decide) (by decide) rfl).1⟩

/-- C7: on the identifier path (explicit per-kind identifier lists
supplied), a non-cache kind with an empty list is skipped (no call,
removed count `0`); a non-cache kind whose removal succeeds is removed by
identifier list, its removed count is the identifier count and its
reclaimed-byte contribution is the scan-time estimate (independent of the
removal output); cache always takes the bulk prune path with its parsed
output; and the reclaimed total is the accumulation of these per-kind
contributions. -/
theorem claim7_identifier_path (now : Int) (toISO : Int → String) (opts : CleanOptions)
    (prov : DockerProvider) (sel : ResourceType → List String) (est : ResourceType → Int)
    (l₁ l₂ : List ResourceType) (k : ResourceType)
    (hdry : opts.dryRun = false) (hsel : opts.selectedIds = some sel)
    (hest : opts.estimatedBytes = some est)
    (hres : opts.resources = l₁ ++ k :: l₂) (h1 : k ∉ l₁) (h2 : k ∉ l₂) :
    let fu := filterUntilTimestamp now toISO opts.olderThanMs
    (k ≠ .cache → sel k = [] →
      (cleanResources now toISO opts prov).1.removed k = 0
      ∧ kindCall opts fu k = none)
    ∧ (∀ out, k ≠ .cache → kindResult opts prov fu k = some (.ok out) →
      (cleanResources now toISO opts prov).1.removed k = (sel k).length
      ∧ kindCall opts fu k = removeCall k (sel k)
      ∧ stepContrib opts prov fu k = some (est k))
    ∧ (∀ out, k = .cache → prov.prune k fu false = .ok out →
      kindCall opts fu k = some (.prune k fu false)
      ∧ (cleanResources now toISO opts prov).1.removed k
          = (if parsePrunedCount out = 0 then opts.expectedCounts k else parsePrunedCount out)
      ∧ stepContrib opts prov fu k = parseReclaimedBytes out)
    ∧ (cleanResources now toISO opts prov).1.reclaimedBytes
        = opts.resources.foldl (fun a t => jsAdd a (stepContrib opts prov fu t)) (some 0) := by
  intro fu
  have hremoved : (cleanResources now toISO opts prov).1.removed k
      = stepRemovedFn opts prov fu k 0 := by
    unfold cleanResources
    rw [if_neg (by simp [hdry])]
    dsimp only
    rw [foldClean_removed, hres, List.foldl_append,
      foldl_skip (stepRemovedFn opts prov fu) k l₁ h1]
    simp only [List.foldl_cons, if_pos rfl]
    rw [foldl_skip (stepRemovedFn opts prov fu) k l₂ h2]
    rfl
  refine ⟨?_, ?_, ?_, ?_⟩
  · intro hkc hids
    constructor
    · rw [hremoved]
      unfold stepRemovedFn kindResult kindCall
      rw [hsel]
      simp [hkc, hids]
    · unfold kindCall
      rw [hsel]
      simp [hkc, hids]
  · intro out hkc hkr
    refine ⟨?_, ?_, ?_⟩
    · rw [hremoved]
      unfold stepRemovedFn
      rw [hkr, hsel]
      simp [hkc]
    · unfold kindCall
      rw [hsel]
      simp only [hkc, if_false, if_neg hkc]
      by_cases hl : 0 < (sel k).length
      · rw [if_pos hl]
      · exfalso
        unfold kindResult kindCall at hkr
        rw [hsel] at hkr
        simp [hkc, hl] at hkr
    · unfold stepContrib
      rw [hkr, hsel, hest]
      simp [hkc]
  · intro out hkc hok
    subst hkc
    have hkc2 : kindCall opts fu ResourceType.cache = some (.prune .cache fu false) := by
      unfold kindCall
      rw [hsel]
      simp
    have hkr : kindResult opts prov fu ResourceType.cache = some (.ok out) := by
      unfold kindResult
      rw [hkc2]
      simp [runCall, hok]
    refine ⟨hkc2, ?_, ?_⟩
    · rw [hremoved]
      unfold stepRemovedFn
      rw [hkr, hsel]
      rfl
    · unfold stepContrib
      rw [hkr, hsel]
      rfl
  · unfold cleanResources
    rw [if_neg (by simp [hdry])]
    dsimp only
    exact foldClean_reclaimed opts prov fu opts.resources initialCleanState

theorem claim5_failure_isolation_witness :
    ({ resources := [ResourceType.containers, ResourceType.images, ResourceType.volumes],
       dryRun := false, includeAllImages := false,
       expectedCounts := fun _ => 0 } : CleanOptions).dryRun = false
    ∧ (cleanResources 0 (fun _ => "")
        { resources := [ResourceType.containers, ResourceType.images, ResourceType.volumes],
          dryRun := false, includeAllImages := false, expectedCounts := fun _ => 0 }
        ⟨fun t _ _ => if t = ResourceType.images then .error (.errObj "Images error")
            else .ok "Deleted Containers: 2",
          fun _ => .ok "", fun _ => .ok "", fun _ => .ok "", fun _ => .ok ""⟩).1.failures
        ResourceType.images
      = [jsErrorMessage (.errObj "Images error")] :=
  ⟨rfl,
    (claim5_failure_isolation 0 (fun _ => "")
      { resources := [ResourceType.containers, ResourceType.images, ResourceType.volumes],
        dryRun := false, includeAllImages := false, expectedCounts := fun _ => 0 }
      ⟨fun t _ _ => if t = ResourceType.images then .error (.errObj "Images error")
          else .ok "Deleted Containers: 2",
        fun _ => .ok "", fun _ => .ok "", fun _ => .ok "", fun _ => .ok ""⟩
      (.errObj "Images error") [ResourceType.containers] [ResourceType.volumes]
      ResourceType.images rfl rfl (by decide) (by decide) rfl).1⟩

theorem claim7_identifier_path_witness :
    ({ resources := [ResourceType.containers], dryRun := false, includeAllImages := false,
        expectedCounts := fun _ => 0,
        selectedIds := some (fun t => if t = ResourceType.containers then ["a", "b"] else []),
        estimatedBytes := some (fun _ => 800) } : CleanOptions).selectedIds
      = some (fun t => if t = ResourceType.containers then ["a", "b"] else [])
    ∧ ((cleanResources 0 (fun _ => "")
        { resources := [ResourceType.containers], dryRun := false, includeAllImages := false,
          expectedCounts := fun _ => 0,
          selectedIds := some (fun t => if t = ResourceType.containers then ["a", "b"] else []),
          estimatedBytes := some (fun _ => 800) }
        ⟨fun _ _ _ => .ok "", fun _ => .ok "removed", fun _ => .ok "", fun _ => .ok "",
          fun _ => .ok ""⟩).1.removed ResourceType.containers
      = ((fun t => if t = ResourceType.containers then ["a", "b"] else [])
          ResourceType.containers).length) :=
  ⟨rfl,
    ((claim7_identifier_path 0 (fun _ => "")
      { resources := [ResourceType.containers], dryRun := false, includeAllImages := false,
        expectedCounts := fun _ => 0,
        selectedIds := some (fun t => if t = ResourceType.containers then ["a", "b"] else []),
        estimatedBytes := some (fun _ => 800) }
      ⟨fun _ _ _ => .ok "", fun _ => .ok "removed", fun _ => .ok "", fun _ => .ok "",
        fun _ => .ok ""⟩
      (fun t => if t = ResourceType.containers then ["a", "b"] else []) (fun _ => 800)
      [] [] ResourceType.containers rfl rfl rfl rfl (by decide) (by decide)).2.1
      "removed" (by decide) rfl).1⟩

theorem containersSeg_map_reclaimable (dateParse : String → Option Int) (now : Int)
    (opts : ScanOptions) (prov : ScanProvider) :
    (containersSeg dateParse now opts prov).1.map (fun s => s.reclaimableBytes)
      = (if opts.includeContainers then [(containersSeg dateParse now opts prov).2] else []) := by
  unfold containersSeg
  by_cases h : opts.includeContainers <;> simp [h]

theorem imagesSeg_map_reclaimable (dateParse : String → Option Int) (now : Int)
    (opts : ScanOptions) (prov : ScanProvider) :
    (imagesSeg dateParse now opts prov).1.map (fun s => s.reclaimableBytes)
      = (if opts.includeImages then [(imagesSeg dateParse now opts prov).2] else []) := by
  unfold imagesSeg
  by_cases h : opts.includeImages <;> simp [h]

theorem volumesSeg_map_reclaimable (dateParse : String → Option Int) (now : Int)
    (opts : ScanOptions) (prov : ScanProvider) :
    (volumesSeg dateParse now opts prov).map (fun s => s.reclaimableBytes)
      = (if opts.includeVolumes then [some 0] else []) := by
  unfold volumesSeg
  by_cases h : opts.includeVolumes <;> simp [h]

theorem networksSeg_map_reclaimable (dateParse : String → Option Int) (now : Int)
    (opts : ScanOptions) (prov : ScanProvider) :
    (networksSeg dateParse now opts prov).map (fun s => s.reclaimableBytes)
      = (if opts.includeNetworks then [some 0] else []) := by
  unfold networksSeg
  by_cases h : opts.includeNetworks <;> simp [h]

theorem cacheSeg_map_reclaimable (now : Int) (toISO : Int → String)
    (opts : ScanOptions) (prov : ScanProvider) :
    (cacheSeg now toISO opts prov).1.map (fun s => s.reclaimableBytes)
      = (if opts.includeCache then [(cacheSeg now toISO opts prov).2] else []) := by
  unfold cacheSeg
  by_cases h : opts.includeCache <;> simp [h]

/-- The sum (in JS arithmetic) of the per-summary estimates equals the
total accumulated by the scan before the disk-usage fallback. -/
theorem scan_summaries_sum (dateParse : String → Option Int) (now : Int)
    (toISO : Int → String) (opts : ScanOptions) (prov : ScanProvider) :
    ((scanResources dateParse now toISO opts prov).summaries.map
        (fun s => s.reclaimableBytes)).foldl jsAdd (some 0)
      = scanPreTotal dateParse now toISO opts prov := by
  unfold scanResources scanPreTotal
  simp only [List.map_append, List.foldl_append,
    containersSeg_map_reclaimable, imagesSeg_map_reclaimable, volumesSeg_map_reclaimable,
    networksSeg_map_reclaimable, cacheSeg_map_reclaimable]
  by_cases h1 : opts.includeContainers <;> by_cases h2 : opts.includeImages <;>
    by_cases h3 : opts.includeVolumes <;> by_cases h4 : opts.includeNetworks <;>
    by_cases h5 : opts.includeCache <;>
    · simp only [h1, h2, h3, h4, h5, if_true, if_false, List.foldl_cons, List.foldl_nil,
        jsAdd_zero_right]
      try rw [if_neg (by simp [h1])]
      try rw [if_neg (by simp [h2])]
      try rw [if_neg (by simp [h3])]
      try rw [if_neg (by simp [h4])]
      try rw [if_neg (by simp [h5])]
      try simp [containersSeg, imagesSeg, cacheSeg, h1, h2, h5]

/-- C8: after all kinds are processed, the returned total is the sum of
the per-summary estimates, replaced by the disk-usage summary's reported
reclaimable figure only when that sum is exactly zero (and left at zero
when the summary reports none); the substitution never alters the
summaries themselves (they do not depend on the disk-usage rows). -/
theorem claim8_total_reclaimable (dateParse : String → Option Int) (now : Int)
    (toISO : Int → String) (opts : ScanOptions) (prov : ScanProvider) :
    (scanResources dateParse now toISO opts prov).totalReclaimableBytes
      = (if ((scanResources dateParse now toISO opts prov).summaries.map
            (fun s => s.reclaimableBytes)).foldl jsAdd (some 0) = some 0 then
          (match dfFindReclaimable prov.systemDf with
           | some s => parseDockerSize (some s)
           | none => some 0)
         else ((scanResources dateParse now toISO opts prov).summaries.map
            (fun s => s.reclaimableBytes)).foldl jsAdd (some 0))
    ∧ (∀ df', (scanResources dateParse now toISO opts { prov with systemDf := df' }).summaries
        = (scanResources dateParse now toISO opts prov).summaries) := by
  constructor
  · rw [scan_summaries_sum]
    show (if scanPreTotal dateParse now toISO opts prov = some 0 then _ else _) = _
    by_cases hz : scanPreTotal dateParse now toISO opts prov = some 0
    · rw [if_pos hz, if_pos hz]
      cases dfFindReclaimable prov.systemDf with
      | none => simp [hz]
      | some s => simp
    · rw [if_neg hz, if_neg hz]
  · intro df'
    rfl

/-! ## Lemmas towards the declarative reading of the size regex (C10) -/

theorem toLower_of_isJsSpace {c : Char} (h : isJsSpace c = true) : c.toLower = c := by
  simp only [isJsSpace, Bool.or_eq_true, decide_eq_true_eq] at h
  rcases h with ((((h | h) | h) | h) | h) | h <;> subst h <;> decide

theorem toLower_of_isDigitDot {c : Char} (h : isDigitDot c = true) : c.toLower = c := by
  simp only [isDigitDot, isAsciiDigit, Bool.or_eq_true, Bool.and_eq_true,
    decide_eq_true_eq] at h
  rcases h with ⟨h1, h2⟩ | h
  · have hn : c.toNat ≤ 57 := by
      have := Char.le_def.mp h2
      simpa [Char.toNat] using this
    unfold Char.toLower
    rw [if_neg]
    omega
  · subst h
    decide

theorem not_isJsSpace_of_isDigitDot {c : Char} (h : isDigitDot c = true) :
    isJsSpace c = false := by
  by_contra hne
  rw [Bool.not_eq_false] at hne
  simp only [isJsSpace, Bool.or_eq_true, decide_eq_true_eq] at hne
  rcases hne with ((((h' | h') | h') | h') | h') | h' <;> subst h' <;> exact absurd h (by decide)

theorem unit_head_class {c : Char} {cs : List Char} (h : isUnitToken (c :: cs)) :
    isDigitDot c = false ∧ isJsSpace c = false := by
  have hc : c.toLower = 'b' ∨ c.toLower = 'k' ∨ c.toLower = 'm' ∨ c.toLower = 'g'
      ∨ c.toLower = 't' := by
    unfold isUnitToken at h
    simp only [List.map_cons, List.mem_cons, List.mem_singleton] at h
    rcases h with h | h | h | h | h | h <;>
      first
      | (injection h with h1 _; simp [h1])
      | simp at h
  constructor
  · by_contra hne
    rw [Bool.not_eq_false] at hne
    rw [toLower_of_isDigitDot hne] at hc
    rcases hc with h' | h' | h' | h' | h' <;> subst h' <;> exact absurd hne (by decide)
  · by_contra hne
    rw [Bool.not_eq_false] at hne
    rw [toLower_of_isJsSpace hne] at hc
    rcases hc with h' | h' | h' | h' | h' <;> subst h' <;> exact absurd hne (by decide)

theorem takeWhile_append_all {p : Char → Bool} :
    ∀ {m : List Char} (t : List Char), (∀ c ∈ m, p c = true) →
      (m ++ t).takeWhile p = m ++ t.takeWhile p
  | [], t, _ => rfl
  | c :: m, t, h => by
    have hc := h c (List.mem_cons_self c m)
    simp only [List.cons_append, List.takeWhile_cons, hc, if_true]
    rw [takeWhile_append_all t (fun x hx => h x (List.mem_cons_of_mem c hx))]

theorem dropWhile_append_all {p : Char → Bool} :
    ∀ {m : List Char} (t : List Char), (∀ c ∈ m, p c = true) →
      (m ++ t).dropWhile p = t.dropWhile p
  | [], t, _ => rfl
  | c :: m, t, h => by
    have hc := h c (List.mem_cons_self c m)
    simp only [List.cons_append, List.dropWhile_cons, hc, if_true]
    exact dropWhile_append_all t (fun x hx => h x (List.mem_cons_of_mem c hx))

theorem unitAt_sound {cs u : List Char} (h : unitAt cs = some u) :
    isUnitToken u ∧ ∃ rest, cs = u ++ rest := by
  match cs with
  | [] => simp [unitAt] at h
  | c :: cs' =>
    simp only [unitAt] at h
    by_cases hb : c.toLower = 'b'
    · rw [if_pos hb] at h
      injection h with h
      subst h
      exact ⟨by simp [isUnitToken, hb], cs', rfl⟩
    · rw [if_neg hb] at h
      by_cases hk : c.toLower = 'k' ∨ c.toLower = 'm' ∨ c.toLower = 'g' ∨ c.toLower = 't'
      · rw [if_pos hk] at h
        match cs' with
        | [] => simp at h
        | c2 :: cs'' =>
          by_cases hb2 : c2.toLower = 'b'
          · simp only [if_pos hb2, Option.some.injEq] at h
            subst h
            refine ⟨?_, cs'', rfl⟩
            unfold isUnitToken
            rcases hk with h' | h' | h' | h' <;> simp [h', hb2]
          · simp [hb2] at h
      · rw [if_neg hk] at h
        exact absurd h (by simp)

theorem unitAt_of_front {u : List Char} (hu : isUnitToken u) :
    ∀ rest : List Char, ∃ u₀, unitAt (u ++ rest) = some u₀ := by
  intro rest
  unfold isUnitToken at hu
  match u with
  | [] => simp at hu
  | [c] =>
    simp only [List.map_cons, List.map_nil, List.mem_cons, List.mem_singleton] at hu
    have hb : c.toLower = 'b' := by
      rcases hu with h | h | h | h | h | h <;> simp_all
    exact ⟨[c], by simp [unitAt, hb]⟩
  | [c1, c2] =>
    simp only [List.map_cons, List.map_nil, List.mem_cons, List.mem_singleton] at hu
    have hb2 : c2.toLower = 'b' ∧ (c1.toLower = 'k' ∨ c1.toLower = 'm' ∨ c1.toLower = 'g'
        ∨ c1.toLower = 't') := by
      rcases hu with h | h | h | h | h | h <;> simp_all
    have hne : ¬ c1.toLower = 'b' := by
      rcases hb2.2 with h' | h' | h' | h' <;> simp [h']
    refine ⟨[c1, c2], ?_⟩
    simp only [List.cons_append, unitAt]
    rw [if_neg hne, if_pos hb2.2]
    simp [hb2.1]
  | c1 :: c2 :: c3 :: u' =>
    simp only [List.map_cons, List.mem_cons, List.mem_singleton] at hu
    rcases hu with h | h | h | h | h | h <;> simp at h

theorem unitAt_unique {cs u₀ u : List Char} (h0 : unitAt cs = some u₀)
    (hu : isUnitToken u) (hfront : ∃ r, cs = u ++ r) : u = u₀ := by
  obtain ⟨r, rfl⟩ := hfront
  unfold isUnitToken at hu
  match u with
  | [] => simp at hu
  | [c] =>
    simp only [List.map_cons, List.map_nil, List.mem_cons, List.mem_singleton] at hu
    have hb : c.toLower = 'b' := by
      rcases hu with h | h | h | h | h | h <;> simp_all
    simp only [List.cons_append, unitAt] at h0
    rw [if_pos hb] at h0
    exact Option.some.inj h0
  | [c1, c2] =>
    simp only [List.map_cons, List.map_nil, List.mem_cons, List.mem_singleton] at hu
    have hb2 : c2.toLower = 'b' ∧ (c1.toLower = 'k' ∨ c1.toLower = 'm' ∨ c1.toLower = 'g'
        ∨ c1.toLower = 't') := by
      rcases hu with h | h | h | h | h | h <;> simp_all
    have hne : ¬ c1.toLower = 'b' := by
      rcases hb2.2 with h' | h' | h' | h' <;> simp [h']
    simp only [List.cons_append, unitAt] at h0
    rw [if_neg hne, if_pos hb2.2] at h0
    simp only [hb2.1, if_true, Option.some.injEq] at h0
    exact h0
  | c1 :: c2 :: c3 :: u' =>
    simp only [List.map_cons, List.mem_cons, List.mem_singleton] at hu
    rcases hu with h | h | h | h | h | h <;> simp at h

theorem takeWhile_nil_of_head {p : Char → Bool} {c : Char} {t : List Char}
    (h : p c = false) : (c :: t).takeWhile p = [] := by
  simp [List.takeWhile_cons, h]

theorem dropWhile_id_of_head {p : Char → Bool} {c : Char} {t : List Char}
    (h : p c = false) : (c :: t).dropWhile p = c :: t := by
  simp [List.dropWhile_cons, h]

theorem isDigitDot_false_of_isJsSpace {c : Char} (hc : isJsSpace c = true) :
    isDigitDot c = false := by
  by_contra hcon
  rw [Bool.not_eq_false] at hcon
  have := not_isJsSpace_of_isDigitDot hcon
  rw [hc] at this
  exact Bool.true_eq_false.mp this

/-- An occurrence at offset 0 is forced: the magnitude is the maximal
digit-dot run, the gap is the maximal whitespace run after it, and the
unit starts right after. -/
theorem occ_at_zero {l m sp u : List Char} (h : SizeOccurrence l [] m sp u) :
    l.takeWhile isDigitDot = m
    ∧ (l.dropWhile isDigitDot).takeWhile isJsSpace = sp
    ∧ ∃ post, (l.dropWhile isDigitDot).dropWhile isJsSpace = u ++ post := by
  obtain ⟨⟨post, hl⟩, hm, hdd, hws, hu⟩ := h
  obtain ⟨c0, cs0, rfl⟩ : ∃ c0 cs0, u = c0 :: cs0 := by
    match u with
    | [] => exact absurd hu (by simp [isUnitToken])
    | c0 :: cs0 => exact ⟨c0, cs0, rfl⟩
  have huh := unit_head_class hu
  simp only [List.nil_append, List.append_assoc, List.cons_append] at hl
  subst hl
  have htw : (sp ++ (c0 :: (cs0 ++ post))).takeWhile isDigitDot = [] := by
    cases sp with
    | nil => exact takeWhile_nil_of_head huh.1
    | cons c sp' =>
      exact takeWhile_nil_of_head
        (isDigitDot_false_of_isJsSpace (hws c (List.mem_cons_self _ _)))
  have hdw : (sp ++ (c0 :: (cs0 ++ post))).dropWhile isDigitDot
      = sp ++ (c0 :: (cs0 ++ post)) := by
    cases sp with
    | nil => exact dropWhile_id_of_head huh.1
    | cons c sp' =>
      exact dropWhile_id_of_head
        (isDigitDot_false_of_isJsSpace (hws c (List.mem_cons_self _ _)))
  refine ⟨?_, ?_, ?_⟩
  · rw [takeWhile_append_all _ hdd, htw, List.append_nil]
  · rw [dropWhile_append_all _ hdd, hdw, takeWhile_append_all _ hws,
      takeWhile_nil_of_head huh.2, List.append_nil]
  · rw [dropWhile_append_all _ hdd, hdw, dropWhile_append_all _ hws,
      dropWhile_id_of_head huh.2]
    exact ⟨post, rfl⟩

theorem occ_nil_front {c : Char} {rest m sp u : List Char}
    (h : SizeOccurrence (c :: rest) [] m sp u) : isDigitDot c = true := by
  obtain ⟨⟨post, hl⟩, hm, hdd, _, _⟩ := h
  match m with
  | [] => exact absurd rfl hm
  | c' :: m' =>
    simp only [List.nil_append, List.cons_append, List.cons.injEq] at hl
    exact hl.1 ▸ hdd c' (List.mem_cons_self _ _)

theorem occ_cons_shift {c c' : Char} {rest pre' m sp u : List Char}
    (h : SizeOccurrence (c :: rest) (c' :: pre') m sp u) :
    SizeOccurrence rest pre' m sp u := by
  obtain ⟨⟨post, hl⟩, hm, hdd, hws, hu⟩ := h
  simp only [List.cons_append, List.cons.injEq] at hl
  exact ⟨⟨post, hl.2⟩, hm, hdd, hws, hu⟩

theorem occ_lift {c : Char} {rest pre m sp u : List Char}
    (h : SizeOccurrence rest pre m sp u) : SizeOccurrence (c :: rest) (c :: pre) m sp u := by
  obtain ⟨⟨post, hl⟩, hm, hdd, hws, hu⟩ := h
  exact ⟨⟨post, by simp [hl]⟩, hm, hdd, hws, hu⟩

theorem no_zero_occ_of_unitAt_none {l : List Char}
    (h : unitAt ((l.dropWhile isDigitDot).dropWhile isJsSpace) = none)
    {m sp u : List Char} (hocc : SizeOccurrence l [] m sp u) : False := by
  obtain ⟨_, _, post, hpost⟩ := occ_at_zero hocc
  obtain ⟨u₀, hu₀⟩ := unitAt_of_front hocc.2.2.2.2 post
  rw [hpost, hu₀] at h
  exact absurd h (by simp)

theorem canonical_occ {l : List Char} {u₀ : List Char}
    (hu0 : unitAt ((l.dropWhile isDigitDot).dropWhile isJsSpace) = some u₀)
    (hB : l.takeWhile isDigitDot ≠ []) :
    SizeOccurrence l [] (l.takeWhile isDigitDot)
      ((l.dropWhile isDigitDot).takeWhile isJsSpace) u₀ := by
  obtain ⟨htok, rest', hrest⟩ := unitAt_sound hu0
  refine ⟨⟨rest', ?_⟩, hB, ?_, ?_, htok⟩
  · simp only [List.nil_append, List.append_assoc]
    rw [← hrest, List.takeWhile_append_dropWhile, List.takeWhile_append_dropWhile]
  · intro c hc
    exact List.mem_takeWhile_imp hc
  · intro c hc
    exact List.mem_takeWhile_imp hc

/-- Soundness of the scanner: its result is the leftmost occurrence. -/
theorem findSizeMatch_first : ∀ {l m u : List Char}, findSizeMatch l = some (m, u) →
    FirstSizeOccurrence l m u := by
  intro l
  induction l with
  | nil => intro m u h; simp [findSizeMatch] at h
  | cons c rest ih =>
    intro m u h
    by_cases hd : isDigitDot c
    · rw [findSizeMatch, if_pos hd] at h
      cases hu0 : unitAt (((c :: rest).dropWhile isDigitDot).dropWhile isJsSpace) with
      | some u₀ =>
        rw [hu0] at h
        simp only [Option.some.injEq, Prod.mk.injEq] at h
        obtain ⟨rfl, rfl⟩ := h
        refine ⟨[], ((c :: rest).dropWhile isDigitDot).takeWhile isJsSpace, ?_, ?_⟩
        · exact canonical_occ hu0 (by simp [List.takeWhile_cons, hd])
        · intro pre' m' sp' u' _
          simp
      | none =>
        rw [hu0] at h
        obtain ⟨pre, sp, hocc, hmin⟩ := ih h
        refine ⟨c :: pre, sp, occ_lift hocc, ?_⟩
        intro pre' m' sp' u' hocc'
        match pre' with
        | [] => exact absurd hocc' (fun hc => no_zero_occ_of_unitAt_none hu0 hc)
        | c' :: pre'' =>
          have := hmin pre'' m' sp' u' (occ_cons_shift hocc')
          simp only [List.length_cons]
          omega
    · rw [findSizeMatch, if_neg hd] at h
      obtain ⟨pre, sp, hocc, hmin⟩ := ih h
      refine ⟨c :: pre, sp, occ_lift hocc, ?_⟩
      intro pre' m' sp' u' hocc'
      match pre' with
      | [] => exact absurd (occ_nil_front hocc') (by simp [hd])
      | c' :: pre'' =>
        have := hmin pre'' m' sp' u' (occ_cons_shift hocc')
        simp only [List.length_cons]
        omega

/-- Completeness of the scanner: the leftmost occurrence, if any, is what
the scanner returns. -/
theorem first_findSizeMatch : ∀ {l m u : List Char}, FirstSizeOccurrence l m u →
    findSizeMatch l = some (m, u) := by
  intro l
  induction l with
  | nil =>
    intro m u ⟨pre, sp, ⟨⟨post, hl⟩, hm, _⟩, _⟩
    match pre, m with
    | [], [] => exact absurd rfl hm
    | [], m0 :: m' => simp at hl
    | p0 :: p', _ => simp at hl
  | cons c rest ih =>
    intro m u ⟨pre, sp, hocc, hmin⟩
    by_cases hd : isDigitDot c
    · rw [findSizeMatch, if_pos hd]
      cases hu0 : unitAt (((c :: rest).dropWhile isDigitDot).dropWhile isJsSpace) with
      | some u₀ =>
        have hcan : SizeOccurrence (c :: rest) [] ((c :: rest).takeWhile isDigitDot)
            (((c :: rest).dropWhile isDigitDot).takeWhile isJsSpace) u₀ :=
          canonical_occ hu0 (by simp [List.takeWhile_cons, hd])
        have hpre : pre = [] := by
          have := hmin [] _ _ _ hcan
          simpa using this
        subst hpre
        obtain ⟨hm, hsp, post, hpost⟩ := occ_at_zero hocc
        have hu : u = u₀ :=
          unitAt_unique hu0 hocc.2.2.2.2 ⟨post, hpost⟩
        rw [hm, hu]
      | none =>
        apply ih
        match pre with
        | [] => exact absurd hocc (fun hc => no_zero_occ_of_unitAt_none hu0 hc)
        | c' :: pre' =>
          refine ⟨pre', sp, occ_cons_shift hocc, ?_⟩
          intro pre'' m' sp' u' hocc'
          have := hmin (c :: pre'') m' sp' u' (occ_lift hocc')
          simp only [List.length_cons] at this
          omega
    · rw [findSizeMatch, if_neg hd]
      apply ih
      match pre with
      | [] => exact absurd (occ_nil_front hocc) (by simp [hd])
      | c' :: pre' =>
        refine ⟨pre', sp, occ_cons_shift hocc, ?_⟩
        intro pre'' m' sp' u' hocc'
        have := hmin (c :: pre'') m' sp' u' (occ_lift hocc')
        simp only [List.length_cons] at this
        omega

/-- C10 counterexample to the claim as stated: `"0 B"` does contain a
magnitude-plus-unit occurrence, yet `parseDockerSize` returns `0` — so
"returns 0 only when no such substring exists or the input is absent" is
false (the matched value itself rounds to zero). -/
theorem claim10_counterexample :
    SizeOccurrence (jsTrimChars "0 B".data) [] ['0'] [' '] ['B']
    ∧ parseDockerSize (some "0 B") = some 0 := by
  constructor
  · exact ⟨⟨[], by decide⟩, by decide, by decide, by decide, by decide⟩
  · have h1 : findSizeMatch (jsTrimChars "0 B".data) = some (['0'], ['B']) := by decide
    unfold parseDockerSize
    dsimp only
    rw [if_neg (by decide : ¬("0 B" : String) = "")]
    unfold parseDockerSizeChars
    rw [h1]
    dsimp only
    have h2 : jsNumOfMagnitude ['0'] = some 0 := by
      have e1 : List.takeWhile (fun c => !decide (c = '.')) ['0'] = ['0'] := by decide
      have e2 : List.dropWhile (fun c => !decide (c = '.')) ['0'] = [] := by decide
      have e3 : digitsToNat ['0'] = 0 := by decide
      unfold jsNumOfMagnitude
      rw [if_pos (by decide)]
      dsimp only
      rw [e1, e2, e3]
      norm_num [digitsToNat, List.drop, List.foldl, List.length]
    rw [h2]
    dsimp only
    have h3 : jsRound ((0 : ℚ) * (multOfUnit ['B'] : ℚ)) = 0 := by
      have : ((0 : ℚ) * (multOfUnit ['B'] : ℚ)) = 0 := by ring
      rw [jsRound, this]
      rw [Int.floor_eq_zero_iff]
      constructor <;> norm_num
    rw [h3]

/-- C10 amended: `parseDockerSize` matches the first decimal-magnitude +
recognised-unit occurrence anywhere in the (trimmed) input rather than
requiring the whole string to be a size.  When the first occurrence's
magnitude is a well-formed JS number (at most one dot, at least one
digit), the result is its rounded byte value — which can itself be `0`,
e.g. for `"0 B"`; when the magnitude is malformed (e.g. `"1.2.3"`,
greedily matched by `[0-9.]+`) the result is NaN; `0` is returned when
the input is absent, empty, or contains no such occurrence. -/
theorem claim10_first_occurrence (s : String) :
    (∀ m u, FirstSizeOccurrence (jsTrimChars s.data) m u →
      parseDockerSize (some s)
        = (match jsNumOfMagnitude m with
           | some q => some (jsRound (q * (multOfUnit u : ℚ)))
           | none => none))
    ∧ ((∀ pre m sp u, ¬ SizeOccurrence (jsTrimChars s.data) pre m sp u) →
        parseDockerSize (some s) = some 0)
    ∧ parseDockerSize none = some 0 := by
  refine ⟨?_, ?_, rfl⟩
  · intro m u hfirst
    have hfind := first_findSizeMatch hfirst
    by_cases hs : s = ""
    · subst hs
      rw [show jsTrimChars "".data = [] from rfl] at hfind
      simp [findSizeMatch] at hfind
    · unfold parseDockerSize
      dsimp only
      rw [if_neg hs]
      unfold parseDockerSizeChars
      rw [hfind]
      dsimp only
      cases jsNumOfMagnitude m <;> rfl
  · intro hno
    cases hfind : findSizeMatch (jsTrimChars s.data) with
    | some mu =>
      obtain ⟨pre, sp, hocc, -⟩ := findSizeMatch_first
        (l := jsTrimChars s.data) (m := mu.1) (u := mu.2) (by rw [hfind])
      exact absurd hocc (hno pre mu.1 sp mu.2)
    | none =>
      by_cases hs : s = ""
      · subst hs
        rfl
      · unfold parseDockerSize
        dsimp only
        rw [if_neg hs]
        unfold parseDockerSizeChars
        rw [hfind]

theorem claim10_first_occurrence_witness :
    FirstSizeOccurrence (jsTrimChars "abc 5KB xyz".data) ['5'] ['K', 'B']
    ∧ parseDockerSize (some "abc 5KB xyz")
      = (match jsNumOfMagnitude ['5'] with
         | some q => some (jsRound (q * (multOfUnit ['K', 'B'] : ℚ)))
         | none => none) :=
  ⟨findSizeMatch_first (by decide),
    (claim10_first_occurrence "abc 5KB xyz").1 ['5'] ['K', 'B']
      (findSizeMatch_first (by decide))⟩

end Docklean
